import Mathlib

/-!
A Lean model of the order-lifecycle and payment-reconciliation core of the
opticalMarket backend (`src/modules/orders/orders.service.ts` and
`src/modules/payment/payment.service.ts`), together with proofs of the
behavioural properties claimed for it.

The database is modelled as an explicit `State` (products, addresses,
orders).  Every persistence call of the service layer is modelled as a
`DbWrite`; a `Txn` is the list of writes issued inside one database
transaction (a single ORM call outside an explicit transaction block is a
singleton transaction).  Each service method returns, on success, the new
state, the list of transactions it committed, and its result value; a thrown
exception is modelled as `Except.error`, in which case no write was
committed (the ORM rolls back the active transaction).
-/

namespace OpticalMarket

/-- Order lifecycle states, from the `OrderStatus` enum. -/
inductive OrderStatus where
  | PENDING
  | PAID
  | SHIPPED
  | DELIVERED
  | CANCELLED
deriving DecidableEq

/-- String rendering of an order status, as interpolated into error messages. -/
def OrderStatus.str : OrderStatus → String
  | .PENDING => "PENDING"
  | .PAID => "PAID"
  | .SHIPPED => "SHIPPED"
  | .DELIVERED => "DELIVERED"
  | .CANCELLED => "CANCELLED"

/-- Internal payment states, from the `PaymentStatus` enum. -/
inductive PaymentStatus where
  | PENDING
  | APPROVED
  | IN_PROCESS
  | REJECTED
  | CANCELLED
deriving DecidableEq

/-- Payment methods, from the `PaymentMethod` enum. -/
inductive PaymentMethod where
  | PIX
  | CREDIT_CARD
deriving DecidableEq

/-- Shipping types; the code only ever distinguishes `SELLER` from the rest. -/
inductive ShippingType where
  | SELLER
  | CARRIER
deriving DecidableEq

/-- A product row: id, name, price, stock, owning seller (none = platform). -/
structure Product where
  id : String
  name : String
  price : Rat
  stock : Int
  sellerId : Option String
deriving DecidableEq

/-- An address row (only the fields the order service reads). -/
structure Address where
  id : String
  userId : String
deriving DecidableEq

/-- An order item: product, quantity, unit price captured at order time. -/
structure OrderItem where
  productId : String
  quantity : Nat
  price : Rat
deriving DecidableEq

/-- An order row with its (nested-created) items. -/
structure Order where
  id : String
  userId : String
  sellerId : Option String
  addressId : String
  paymentMethod : PaymentMethod
  shippingMethod : Option String
  shippingType : ShippingType
  total : Rat
  status : OrderStatus
  paymentStatus : PaymentStatus
  paymentId : Option String
  items : List OrderItem
deriving DecidableEq

/-- The database state visible to the order service. -/
structure State where
  products : List Product
  addresses : List Address
  orders : List Order
  nextOrderId : Nat
deriving DecidableEq

/-- Service-layer exceptions (`NotFoundException` / `BadRequestException`). -/
inductive Err where
  | notFound (msg : String)
  | badRequest (msg : String)
deriving DecidableEq

/-- The `updateData` object of `updatePaymentStatus` / `updateOrderStatus`:
fields that are `none` are absent from the update and left untouched. -/
structure OrderUpdate where
  paymentId : Option String
  paymentStatus : Option PaymentStatus
  status : Option OrderStatus
deriving DecidableEq

/-- A single row-level write issued through the ORM. -/
inductive DbWrite where
  | createOrder (o : Order)
  | decStock (productId : String) (quantity : Nat)
  | incStock (productId : String) (quantity : Nat)
  | updateOrder (orderId : String) (upd : OrderUpdate)
deriving DecidableEq

/-- The writes committed by one database transaction. -/
abbrev Txn := List DbWrite

/-- Apply an `updateData` object to an order row. -/
def applyOrderUpdate (o : Order) (u : OrderUpdate) : Order :=
  { o with
    paymentId := match u.paymentId with
      | some p => some p
      | none => o.paymentId
    paymentStatus := u.paymentStatus.getD o.paymentStatus
    status := u.status.getD o.status }

/-- Apply one write to the state. -/
def applyWrite (s : State) (w : DbWrite) : State :=
  match w with
  | .createOrder o =>
      { s with orders := s.orders ++ [o], nextOrderId := s.nextOrderId + 1 }
  | .decStock pid q =>
      { s with products := s.products.map fun p =>
          if p.id = pid then { p with stock := p.stock - (q : Int) } else p }
  | .incStock pid q =>
      { s with products := s.products.map fun p =>
          if p.id = pid then { p with stock := p.stock + (q : Int) } else p }
  | .updateOrder oid u =>
      { s with orders := s.orders.map fun o =>
          if o.id = oid then applyOrderUpdate o u else o }

/-- Apply one transaction. -/
def applyTxn (s : State) (t : Txn) : State := t.foldl applyWrite s

/-- Apply a sequence of transactions. -/
def applyTxns (s : State) (ts : List Txn) : State := ts.foldl applyTxn s

/-- A cart line of `CreateOrderData`. -/
structure CartItem where
  productId : String
  quantity : Nat
deriving DecidableEq

/-- The payload of `OrdersService.create`. -/
structure CreateOrderData where
  addressId : String
  items : List CartItem
  paymentMethod : PaymentMethod
  shippingType : ShippingType
  shippingMethod : Option String
  shippingCost : Option Rat
deriving DecidableEq

/-- The products fetched by `findMany` over the cart's product ids. -/
def fetchedProducts (s : State) (items : List CartItem) : List Product :=
  s.products.filter fun p => decide (p.id ∈ items.map CartItem.productId)

/-- The stock-validation loop of `create`: the first item whose (found)
product has `stock < quantity` yields the insufficient-stock error. -/
def validateStock (products : List Product) : List CartItem → Option Err
  | [] => none
  | item :: rest =>
      match products.find? (fun p => decide (p.id = item.productId)) with
      | some product =>
          if product.stock < (item.quantity : Int) then
            some (Err.badRequest ("Insufficient stock for product: " ++ product.name))
          else validateStock products rest
      | none => validateStock products rest

/-- The grouping key of a product: its seller, or the `'platform'` sentinel. -/
def sellerKey (product : Product) : String := product.sellerId.getD "platform"

/-- Push one entry onto the group of `key`, preserving the first-insertion
order of keys (the iteration order of a JS `Map`). -/
def pushGroup (groups : List (String × List OrderItem)) (key : String)
    (entry : OrderItem) : List (String × List OrderItem) :=
  match groups with
  | [] => [(key, [entry])]
  | (k, es) :: rest =>
      if k = key then (k, es ++ [entry]) :: rest
      else (k, es) :: pushGroup rest key entry

/-- One iteration of `create`'s grouping loop. -/
def groupStep (products : List Product)
    (groups : List (String × List OrderItem)) (item : CartItem) :
    List (String × List OrderItem) :=
  match products.find? (fun p => decide (p.id = item.productId)) with
  | some product =>
      pushGroup groups (sellerKey product)
        ⟨item.productId, item.quantity, product.price⟩
  | none => groups

/-- The seller-group map built by `create`'s grouping loop. -/
def groupBySeller (products : List Product) (items : List CartItem) :
    List (String × List OrderItem) :=
  items.foldl (groupStep products) []

/-- `itemsTotal`: the reduce over a seller group's items. -/
def itemsTotal (sellerItems : List OrderItem) : Rat :=
  sellerItems.foldl (fun sum i => sum + i.price * (i.quantity : Rat)) 0

/-- Fresh order ids, generated from the state's counter. -/
def genOrderId (n : Nat) : String := "order-" ++ toString n

/-- The transaction body of `create`: one order row (with nested items) per
seller group, each followed by that group's per-item stock decrements. -/
def buildOrders (userId : String) (data : CreateOrderData)
    (shippingPerSeller : Rat) :
    Nat → List (String × List OrderItem) → List Order × List DbWrite
  | _, [] => ([], [])
  | n, (sellerId, sellerItems) :: rest =>
      let order : Order :=
        { id := genOrderId n
          userId := userId
          sellerId := if sellerId = "platform" then none else some sellerId
          addressId := data.addressId
          paymentMethod := data.paymentMethod
          shippingMethod := data.shippingMethod
          shippingType := data.shippingType
          total := itemsTotal sellerItems + shippingPerSeller
          status := OrderStatus.PENDING
          paymentStatus := PaymentStatus.PENDING
          paymentId := none
          items := sellerItems }
      let writes := DbWrite.createOrder order ::
        sellerItems.map (fun i => DbWrite.decStock i.productId i.quantity)
      let result := buildOrders userId data shippingPerSeller (n + 1) rest
      (order :: result.1, writes ++ result.2)

/-- The return value of `create`: the single order, or the list. -/
inductive CreateResult where
  | one (order : Order)
  | many (orders : List Order)
deriving DecidableEq

/-- The list of orders carried by a `CreateResult`. -/
def resultOrders : CreateResult → List Order
  | .one o => [o]
  | .many os => os

/-- The even shipping split of `create`: zero for seller-delegated shipping,
otherwise the supplied shipping cost divided by the seller-group count. -/
def shippingPerSellerOf (data : CreateOrderData) (sellerCount : Nat) : Rat :=
  (if data.shippingType = ShippingType.SELLER then 0
   else data.shippingCost.getD 0) / (sellerCount : Rat)

/-- The orders and writes that `create`'s transaction produces. -/
def createBuilt (s : State) (userId : String) (data : CreateOrderData) :
    List Order × List DbWrite :=
  buildOrders userId data
    (shippingPerSellerOf data
      (groupBySeller (fetchedProducts s data.items) data.items).length)
    s.nextOrderId
    (groupBySeller (fetchedProducts s data.items) data.items)

/-- `OrdersService.create`. -/
def create (s : State) (userId : String) (data : CreateOrderData) :
    Except Err (State × List Txn × CreateResult) :=
  if data.items.isEmpty then .error (Err.badRequest "Cart is empty")
  else
    match s.addresses.find?
        (fun a => decide (a.id = data.addressId ∧ a.userId = userId)) with
    | none => .error (Err.notFound "Address not found")
    | some _ =>
        if (fetchedProducts s data.items).length ≠ data.items.length then
          .error (Err.badRequest "One or more products not found")
        else
          match validateStock (fetchedProducts s data.items) data.items with
          | some e => .error e
          | none =>
              .ok (applyTxn s (createBuilt s userId data).2,
                [(createBuilt s userId data).2],
                match (createBuilt s userId data).1 with
                | [o] => CreateResult.one o
                | os => CreateResult.many os)

/-- The `updateData` object that `updatePaymentStatus` builds: always the
payment id and mapped payment status, plus an order status for the
`APPROVED` and `REJECTED`/`CANCELLED` branches. -/
def upsUpdate (paymentId : String) (status : PaymentStatus) : OrderUpdate :=
  { paymentId := some paymentId
    paymentStatus := some status
    status :=
      if status = PaymentStatus.APPROVED then some OrderStatus.PAID
      else if status = PaymentStatus.REJECTED ∨
          status = PaymentStatus.CANCELLED then some OrderStatus.CANCELLED
      else none }

/-- The transactions committed by `updatePaymentStatus`: on a
`REJECTED`/`CANCELLED` status, one single-statement transaction per order
item restoring its stock, then (in every case) the order update as its own
transaction. -/
def upsTxns (order : Order) (orderId paymentId : String)
    (status : PaymentStatus) : List Txn :=
  (if status = PaymentStatus.REJECTED ∨ status = PaymentStatus.CANCELLED then
    order.items.map fun i => [DbWrite.incStock i.productId i.quantity]
   else []) ++
  [[DbWrite.updateOrder orderId (upsUpdate paymentId status)]]

/-- `OrdersService.updatePaymentStatus`.  The stock-restoring product
updates each run as their own single-statement transaction, followed by the
order update as another; nothing wraps them together. -/
def updatePaymentStatus (s : State) (orderId paymentId : String)
    (status : PaymentStatus) :
    Except Err (State × List Txn × Option Order) :=
  match s.orders.find? (fun o => decide (o.id = orderId)) with
  | none => .error (Err.notFound "Order not found")
  | some order =>
      .ok (applyTxns s (upsTxns order orderId paymentId status),
        upsTxns order orderId paymentId status,
        (applyTxns s (upsTxns order orderId paymentId status)).orders.find?
          (fun o => decide (o.id = orderId)))

/-- The `validTransitions` table of `updateOrderStatus`. -/
def validTransitions : OrderStatus → List OrderStatus
  | .PENDING => [.CANCELLED]
  | .PAID => [.SHIPPED, .CANCELLED]
  | .SHIPPED => [.DELIVERED]
  | .DELIVERED => []
  | .CANCELLED => []

/-- `OrdersService.updateOrderStatus`. -/
def updateOrderStatus (s : State) (orderId sellerId : String)
    (newStatus : OrderStatus) :
    Except Err (State × List Txn × Option Order) :=
  match s.orders.find?
      (fun o => decide (o.id = orderId ∧ o.sellerId = some sellerId)) with
  | none => .error (Err.notFound "Order not found or not authorized")
  | some order =>
      if newStatus ∈ validTransitions order.status then
        let txns : List Txn := [[DbWrite.updateOrder orderId
          { paymentId := none, paymentStatus := none, status := some newStatus }]]
        let s' := applyTxns s txns
        .ok (s', txns, s'.orders.find? (fun o => decide (o.id = orderId)))
      else
        .error (Err.badRequest
          ("Cannot transition from " ++ order.status.str ++ " to " ++ newStatus.str))

/-- `OrdersService.findOne`: lookup by order id and owning user. -/
def findOne (s : State) (id userId : String) : Except Err Order :=
  match s.orders.find? (fun o => decide (o.id = id ∧ o.userId = userId)) with
  | none => .error (Err.notFound "Order not found")
  | some o => .ok o

/-- The sequential interface a caller drives the order service through. -/
inductive Op where
  | createOp (userId : String) (data : CreateOrderData)
  | updOrderStatusOp (orderId sellerId : String) (newStatus : OrderStatus)
  | updPaymentStatusOp (orderId paymentId : String) (status : PaymentStatus)

/-- Run one operation; a thrown exception leaves the state unchanged. -/
def runOp (s : State) : Op → State
  | .createOp uid d =>
      match create s uid d with
      | .ok r => r.1
      | .error _ => s
  | .updOrderStatusOp oid sid ns =>
      match updateOrderStatus s oid sid ns with
      | .ok r => r.1
      | .error _ => s
  | .updPaymentStatusOp oid pid st =>
      match updatePaymentStatus s oid pid st with
      | .ok r => r.1
      | .error _ => s

/-- Run a sequence of operations. -/
def runOps (s : State) (ops : List Op) : State := ops.foldl runOp s

/-- `PaymentService.mapPaymentStatus`: the external-to-internal table with
its `PENDING` default. -/
def mapPaymentStatus (mpStatus : String) : PaymentStatus :=
  if mpStatus = "pending" then PaymentStatus.PENDING
  else if mpStatus = "approved" then PaymentStatus.APPROVED
  else if mpStatus = "authorized" then PaymentStatus.APPROVED
  else if mpStatus = "in_process" then PaymentStatus.IN_PROCESS
  else if mpStatus = "in_mediation" then PaymentStatus.IN_PROCESS
  else if mpStatus = "rejected" then PaymentStatus.REJECTED
  else if mpStatus = "cancelled" then PaymentStatus.CANCELLED
  else if mpStatus = "refunded" then PaymentStatus.CANCELLED
  else if mpStatus = "charged_back" then PaymentStatus.CANCELLED
  else PaymentStatus.PENDING

/-! Observation functions used to state the properties. -/

/-- The stock decrements of a list of writes, as (product id, quantity). -/
def decPairs (ws : List DbWrite) : List (String × Nat) :=
  ws.filterMap fun w => match w with
    | .decStock pid q => some (pid, q)
    | _ => none

/-- The stock increments of a list of writes, as (product id, quantity). -/
def incPairs (ws : List DbWrite) : List (String × Nat) :=
  ws.filterMap fun w => match w with
    | .incStock pid q => some (pid, q)
    | _ => none

/-- Total quantity attributed to product `pid` by a list of pairs. -/
def pairSum (prs : List (String × Nat)) (pid : String) : Int :=
  (prs.map fun pr => if pr.1 = pid then (pr.2 : Int) else 0).sum

/-- The order rows inserted by a list of writes. -/
def createdOf (ws : List DbWrite) : List Order :=
  ws.filterMap fun w => match w with
    | .createOrder o => some o
    | _ => none

/-- Does this write touch a product's stock? -/
def isStockWrite : DbWrite → Bool
  | .decStock _ _ => true
  | .incStock _ _ => true
  | _ => false

/-- Is this write an order-row update? -/
def isUpdateWrite : DbWrite → Bool
  | .updateOrder _ _ => true
  | _ => false

/-- Does this write set an order's lifecycle status? -/
def isOrderStatusWrite : DbWrite → Bool
  | .createOrder _ => true
  | .updateOrder _ u => u.status.isSome
  | _ => false

/-- Every transaction that mutates stock also carries the order-status
change that caused it (the §5 shared-resource policy). -/
def txnStockAtomic (txns : List Txn) : Prop :=
  ∀ txn ∈ txns, (∃ w ∈ txn, isStockWrite w) → ∃ w ∈ txn, isOrderStatusWrite w

/-- Well-formed product table: ids are unique (database primary key). -/
def WFp (s : State) : Prop := (s.products.map Product.id).Nodup

/-- Every product's stock is non-negative. -/
def stockNonneg (s : State) : Prop := ∀ p ∈ s.products, 0 ≤ p.stock

/-- Total quantity of product `pid` requested by a cart. -/
def cartQty (items : List CartItem) (pid : String) : Int :=
  pairSum (items.map fun it => (it.productId, it.quantity)) pid

/-- Total quantity of product `pid` held by a list of order items. -/
def restoreQty (items : List OrderItem) (pid : String) : Int :=
  pairSum (items.map fun i => (i.productId, i.quantity)) pid

/-- Append a key unless already seen. -/
def keyStep (acc : List String) (k : String) : List String :=
  if k ∈ acc then acc else acc ++ [k]

/-- First occurrences of a list of keys, in order. -/
def distinctKeys (l : List String) : List String :=
  l.foldl keyStep []

/-- The seller key of each cart item that resolves to a product, in cart
order. -/
def cartKeys (products : List Product) (items : List CartItem) : List String :=
  items.filterMap fun item =>
    (products.find? (fun p => decide (p.id = item.productId))).map sellerKey

/-- The price-carrying entry that the grouping loop builds for each cart
item that resolves to a product, in cart order. -/
def groupEntries (products : List Product) (items : List CartItem) :
    List OrderItem :=
  items.filterMap fun item =>
    (products.find? (fun p => decide (p.id = item.productId))).map
      fun p => ⟨item.productId, item.quantity, p.price⟩

/-! A small concrete database used to instantiate the properties. -/

/-- A seller-owned product with stock 5. -/
def exProduct : Product :=
  { id := "p1", name := "Lens", price := 10, stock := 5,
    sellerId := some "s1" }

/-- A platform-owned product with stock 4. -/
def exProduct2 : Product :=
  { id := "p2", name := "Frame", price := 7, stock := 4, sellerId := none }

/-- An address owned by user `alice`. -/
def exAddress : Address := { id := "a1", userId := "alice" }

/-- A pending order of `alice` at seller `s1` with one item of `p1`. -/
def exOrder : Order :=
  { id := "o1", userId := "alice", sellerId := some "s1", addressId := "a1",
    paymentMethod := PaymentMethod.PIX, shippingMethod := none,
    shippingType := ShippingType.SELLER, total := 20,
    status := OrderStatus.PENDING, paymentStatus := PaymentStatus.PENDING,
    paymentId := none, items := [⟨"p1", 2, 10⟩] }

/-- The concrete example state. -/
def exState : State :=
  { products := [exProduct, exProduct2], addresses := [exAddress],
    orders := [exOrder], nextOrderId := 0 }

/-! Lemmas about the write/transaction semantics. -/

theorem applyTxn_append (s : State) (t₁ t₂ : Txn) :
    applyTxn s (t₁ ++ t₂) = applyTxn (applyTxn s t₁) t₂ :=
  List.foldl_append ..

theorem applyTxns_flatten (s : State) (ts : List Txn) :
    applyTxns s ts = applyTxn s ts.flatten := by
  induction ts generalizing s with
  | nil => rfl
  | cons t ts ih =>
      show applyTxns (applyTxn s t) ts = _
      rw [ih, List.flatten_cons, applyTxn_append]

theorem applyTxn_cons (s : State) (w : DbWrite) (ws : List DbWrite) :
    applyTxn s (w :: ws) = applyTxn (applyWrite s w) ws := rfl

theorem pairSum_nil (pid : String) : pairSum [] pid = 0 := rfl

theorem pairSum_cons (pr : String × Nat) (prs : List (String × Nat)) (pid : String) :
    pairSum (pr :: prs) pid =
      (if pr.1 = pid then (pr.2 : Int) else 0) + pairSum prs pid := by
  simp [pairSum]

theorem pairSum_nonneg (prs : List (String × Nat)) (pid : String) :
    0 ≤ pairSum prs pid := by
  induction prs with
  | nil => simp [pairSum]
  | cons pr prs ih =>
      rw [pairSum_cons]
      have h : (0 : Int) ≤ if pr.1 = pid then (pr.2 : Int) else 0 := by
        split <;> simp
      omega

/-- Closed form for the effect of a write list on the product table. -/
theorem applyTxn_products (s : State) (ws : List DbWrite) :
    (applyTxn s ws).products = s.products.map fun p =>
      { p with stock := p.stock - pairSum (decPairs ws) p.id
                          + pairSum (incPairs ws) p.id } := by
  induction ws generalizing s with
  | nil =>
      have h : (fun p : Product =>
          { p with stock := p.stock - pairSum (decPairs []) p.id
                              + pairSum (incPairs []) p.id }) = id := by
        funext p
        simp [decPairs, incPairs, pairSum]
      simp [applyTxn, h]
  | cons w ws ih =>
      rw [applyTxn_cons, ih]
      cases w with
      | createOrder o =>
          simp [applyWrite, decPairs, incPairs]
      | updateOrder oid u =>
          simp [applyWrite, decPairs, incPairs]
      | decStock pid q =>
          simp only [applyWrite, List.map_map]
          refine List.map_congr_left fun p _ => ?_
          simp only [Function.comp, decPairs, incPairs, List.filterMap_cons,
            pairSum_cons]
          by_cases h : p.id = pid
          · simp only [h, if_pos rfl, if_true]
            simp [Product.mk.injEq]
            omega
          · have h' : pid ≠ p.id := fun hc => h hc.symm
            simp [h, h']
      | incStock pid q =>
          simp only [applyWrite, List.map_map]
          refine List.map_congr_left fun p _ => ?_
          simp only [Function.comp, decPairs, incPairs, List.filterMap_cons,
            pairSum_cons]
          by_cases h : p.id = pid
          · simp only [h, if_pos rfl, if_true]
            simp [Product.mk.injEq]
            omega
          · have h' : pid ≠ p.id := fun hc => h hc.symm
            simp [h, h']

theorem applyTxn_products_map_id (s : State) (ws : List DbWrite) :
    (applyTxn s ws).products.map Product.id = s.products.map Product.id := by
  rw [applyTxn_products, List.map_map]
  rfl

theorem applyWrite_orders_stock (s : State) (w : DbWrite)
    (h : isStockWrite w = true) : (applyWrite s w).orders = s.orders := by
  cases w <;> simp_all [applyWrite, isStockWrite]

theorem applyTxn_orders_no_upd (s : State) (ws : List DbWrite)
    (h : ∀ w ∈ ws, isUpdateWrite w = false) :
    (applyTxn s ws).orders = s.orders ++ createdOf ws := by
  induction ws generalizing s with
  | nil => simp [applyTxn, createdOf]
  | cons w ws ih =>
      rw [applyTxn_cons, ih _ (fun w' hw' => h w' (List.mem_cons_of_mem _ hw'))]
      cases w with
      | createOrder o => simp [applyWrite, createdOf]
      | decStock pid q => simp [applyWrite, createdOf]
      | incStock pid q => simp [applyWrite, createdOf]
      | updateOrder oid u =>
          exact absurd (h _ (List.mem_cons_self _ _)) (by simp [isUpdateWrite])

theorem applyTxn_orders_stock_only (s : State) (ws : List DbWrite)
    (h : ∀ w ∈ ws, isStockWrite w = true) :
    (applyTxn s ws).orders = s.orders := by
  induction ws generalizing s with
  | nil => rfl
  | cons w ws ih =>
      rw [applyTxn_cons, ih _ (fun w' hw' => h w' (List.mem_cons_of_mem _ hw')),
        applyWrite_orders_stock _ _ (h _ (List.mem_cons_self _ _))]

/-- Updating by id rewrites exactly the row that `find?` located. -/
theorem find?_map_update (l : List Order) (oid : String) (g : Order → Order)
    (hg : ∀ o, (g o).id = o.id) (order : Order)
    (hfind : l.find? (fun o => decide (o.id = oid)) = some order) :
    (l.map fun o => if o.id = oid then g o else o).find?
      (fun o => decide (o.id = oid)) = some (g order) := by
  induction l with
  | nil => simp at hfind
  | cons a l ih =>
      by_cases h : a.id = oid
      · rw [List.find?_cons_of_pos _ (by simp [h])] at hfind
        cases hfind
        rw [List.map_cons, if_pos h, List.find?_cons_of_pos _ (by simp [hg, h])]
      · rw [List.find?_cons_of_neg _ (by simp [h])] at hfind
        rw [List.map_cons, if_neg h, List.find?_cons_of_neg _ (by simp [h])]
        exact ih hfind

/-! Lemmas about the grouping loop. -/

theorem pushGroup_keys (gs : List (String × List OrderItem)) (k : String)
    (e : OrderItem) :
    (pushGroup gs k e).map Prod.fst = keyStep (gs.map Prod.fst) k := by
  induction gs with
  | nil => simp [pushGroup, keyStep]
  | cons g gs ih =>
      obtain ⟨k₀, es⟩ := g
      simp only [pushGroup, List.map_cons]
      by_cases h : k₀ = k
      · subst h
        rw [if_pos rfl]
        simp only [keyStep, List.map_cons]
        rw [if_pos (List.mem_cons_self _ _)]
      · rw [if_neg h]
        simp only [List.map_cons, ih, keyStep]
        have h' : ¬k = k₀ := fun hh => h hh.symm
        by_cases hmem : k ∈ gs.map Prod.fst
        · rw [if_pos hmem, if_pos (List.mem_cons_of_mem _ hmem)]
        · rw [if_neg hmem, if_neg (by simp [h', hmem]), List.cons_append]

theorem pushGroup_join_perm (gs : List (String × List OrderItem)) (k : String)
    (e : OrderItem) :
    ((pushGroup gs k e).map Prod.snd).flatten.Perm
      (e :: (gs.map Prod.snd).flatten) := by
  induction gs with
  | nil => simp [pushGroup]
  | cons g gs ih =>
      obtain ⟨k₀, es⟩ := g
      simp only [pushGroup]
      by_cases h : k₀ = k
      · rw [if_pos h]
        simp only [List.map_cons, List.flatten_cons]
        rw [List.append_assoc]
        exact List.perm_middle
      · rw [if_neg h]
        simp only [List.map_cons, List.flatten_cons]
        exact (ih.append_left es).trans List.perm_middle

theorem groupFold_keys (products : List Product) (items : List CartItem)
    (gs : List (String × List OrderItem)) :
    (items.foldl (groupStep products) gs).map Prod.fst =
      (cartKeys products items).foldl keyStep (gs.map Prod.fst) := by
  induction items generalizing gs with
  | nil => simp [cartKeys]
  | cons item rest ih =>
      cases hf : products.find? (fun p => decide (p.id = item.productId)) with
      | none =>
          have hg : groupStep products gs item = gs := by
            simp [groupStep, hf]
          have hk : cartKeys products (item :: rest) =
              cartKeys products rest := by
            simp [cartKeys, List.filterMap_cons, hf]
          rw [List.foldl_cons, hg, ih, hk]
      | some product =>
          have hg : groupStep products gs item =
              pushGroup gs (sellerKey product)
                ⟨item.productId, item.quantity, product.price⟩ := by
            simp [groupStep, hf]
          have hk : cartKeys products (item :: rest) =
              sellerKey product :: cartKeys products rest := by
            simp [cartKeys, List.filterMap_cons, hf]
          rw [List.foldl_cons, hg, ih, pushGroup_keys, hk, List.foldl_cons]

theorem groupBySeller_keys (products : List Product) (items : List CartItem) :
    (groupBySeller products items).map Prod.fst =
      distinctKeys (cartKeys products items) := by
  rw [groupBySeller, distinctKeys, groupFold_keys]
  rfl

theorem groupFold_join_perm (products : List Product) (items : List CartItem)
    (gs : List (String × List OrderItem)) :
    ((items.foldl (groupStep products) gs).map Prod.snd).flatten.Perm
      (groupEntries products items ++ (gs.map Prod.snd).flatten) := by
  induction items generalizing gs with
  | nil => simp [groupEntries]
  | cons item rest ih =>
      cases hf : products.find? (fun p => decide (p.id = item.productId)) with
      | none =>
          have hg : groupStep products gs item = gs := by
            simp [groupStep, hf]
          have he : groupEntries products (item :: rest) =
              groupEntries products rest := by
            simp [groupEntries, List.filterMap_cons, hf]
          rw [List.foldl_cons, hg, he]
          exact ih gs
      | some product =>
          have hg : groupStep products gs item =
              pushGroup gs (sellerKey product)
                ⟨item.productId, item.quantity, product.price⟩ := by
            simp [groupStep, hf]
          have he : groupEntries products (item :: rest) =
              (⟨item.productId, item.quantity, product.price⟩ : OrderItem) ::
                groupEntries products rest := by
            simp [groupEntries, List.filterMap_cons, hf]
          rw [List.foldl_cons, hg, he]
          exact ((ih _).trans
            ((pushGroup_join_perm gs _ _).append_left _)).trans List.perm_middle

theorem groupBySeller_join_perm (products : List Product)
    (items : List CartItem) :
    ((groupBySeller products items).map Prod.snd).flatten.Perm
      (groupEntries products items) := by
  have h := groupFold_join_perm products items []
  simpa [groupBySeller] using h

/-! Lemmas about `keyStep` folds. -/

theorem mem_keyStep (acc : List String) (k x : String) :
    x ∈ keyStep acc k ↔ x ∈ acc ∨ x = k := by
  by_cases h : k ∈ acc
  · simp only [keyStep, if_pos h]
    constructor
    · exact Or.inl
    · rintro (hx | rfl)
      · exact hx
      · exact h
  · simp [keyStep, if_neg h]

theorem keyStep_fold_nodup (l : List String) (acc : List String)
    (hacc : acc.Nodup) : (l.foldl keyStep acc).Nodup := by
  induction l generalizing acc with
  | nil => exact hacc
  | cons k rest ih =>
      rw [List.foldl_cons]
      apply ih
      by_cases h : k ∈ acc
      · simpa [keyStep, h] using hacc
      · simp only [keyStep, if_neg h]
        refine List.Nodup.append hacc (List.nodup_singleton k) ?_
        intro x hx hk
        rw [List.mem_singleton] at hk
        exact h (hk ▸ hx)

theorem mem_keyStep_fold (l : List String) (acc : List String) (x : String) :
    x ∈ l.foldl keyStep acc ↔ x ∈ acc ∨ x ∈ l := by
  induction l generalizing acc with
  | nil => simp
  | cons k rest ih =>
      rw [List.foldl_cons, ih, mem_keyStep]
      simp [or_assoc]

theorem distinctKeys_nodup (l : List String) : (distinctKeys l).Nodup :=
  keyStep_fold_nodup l [] List.nodup_nil

theorem distinctKeys_toFinset (l : List String) :
    (distinctKeys l).toFinset = l.toFinset := by
  ext x
  simp [distinctKeys, List.mem_toFinset, mem_keyStep_fold]

theorem distinctKeys_length (l : List String) :
    (distinctKeys l).length = l.toFinset.card := by
  rw [← distinctKeys_toFinset,
    List.toFinset_card_of_nodup (distinctKeys_nodup l)]

/-! Lemmas about `buildOrders`. -/

theorem buildOrders_length (userId : String) (data : CreateOrderData)
    (sp : Rat) (n : Nat) (gs : List (String × List OrderItem)) :
    (buildOrders userId data sp n gs).1.length = gs.length := by
  induction gs generalizing n with
  | nil => rfl
  | cons g gs ih =>
      obtain ⟨sid, sitems⟩ := g
      simp [buildOrders, ih]

theorem buildOrders_mem (userId : String) (data : CreateOrderData)
    (sp : Rat) (n : Nat) (gs : List (String × List OrderItem)) :
    ∀ o ∈ (buildOrders userId data sp n gs).1,
      o.total = itemsTotal o.items + sp ∧ o.status = OrderStatus.PENDING ∧
        o.paymentStatus = PaymentStatus.PENDING ∧ o.userId = userId := by
  induction gs generalizing n with
  | nil => intro o ho; simp [buildOrders] at ho
  | cons g gs ih =>
      obtain ⟨sid, sitems⟩ := g
      intro o ho
      simp only [buildOrders, List.mem_cons] at ho
      cases ho with
      | inl h => subst h; exact ⟨rfl, rfl, rfl, rfl⟩
      | inr h => exact ih _ o h

theorem buildOrders_sellerIds (userId : String) (data : CreateOrderData)
    (sp : Rat) (n : Nat) (gs : List (String × List OrderItem)) :
    (buildOrders userId data sp n gs).1.map Order.sellerId =
      gs.map fun g => if g.1 = "platform" then none else some g.1 := by
  induction gs generalizing n with
  | nil => rfl
  | cons g gs ih =>
      obtain ⟨sid, sitems⟩ := g
      simp [buildOrders, ih]

theorem buildOrders_items (userId : String) (data : CreateOrderData)
    (sp : Rat) (n : Nat) (gs : List (String × List OrderItem)) :
    (buildOrders userId data sp n gs).1.map Order.items = gs.map Prod.snd := by
  induction gs generalizing n with
  | nil => rfl
  | cons g gs ih =>
      obtain ⟨sid, sitems⟩ := g
      simp [buildOrders, ih]

theorem buildOrders_created (userId : String) (data : CreateOrderData)
    (sp : Rat) (n : Nat) (gs : List (String × List OrderItem)) :
    createdOf (buildOrders userId data sp n gs).2 =
      (buildOrders userId data sp n gs).1 := by
  induction gs generalizing n with
  | nil => rfl
  | cons g gs ih =>
      obtain ⟨sid, sitems⟩ := g
      simp only [buildOrders, createdOf, List.filterMap_cons,
        List.filterMap_append]
      rw [show ∀ l : List OrderItem,
          (l.map fun i => DbWrite.decStock i.productId i.quantity).filterMap
            (fun w => match w with
              | DbWrite.createOrder o => some o
              | _ => none) = [] by
        intro l
        induction l with
        | nil => rfl
        | cons i l ihl => simp [List.filterMap_cons, ihl]]
      simpa [createdOf] using ih (n + 1)

theorem buildOrders_decPairs (userId : String) (data : CreateOrderData)
    (sp : Rat) (n : Nat) (gs : List (String × List OrderItem)) :
    decPairs (buildOrders userId data sp n gs).2 =
      ((gs.map Prod.snd).flatten).map fun i => (i.productId, i.quantity) := by
  induction gs generalizing n with
  | nil => rfl
  | cons g gs ih =>
      obtain ⟨sid, sitems⟩ := g
      simp only [buildOrders, decPairs, List.filterMap_cons,
        List.filterMap_append, List.map_cons, List.flatten_cons,
        List.map_append]
      rw [show ∀ l : List OrderItem,
          (l.map fun i => DbWrite.decStock i.productId i.quantity).filterMap
            (fun w => match w with
              | DbWrite.decStock pid q => some (pid, q)
              | _ => none) = l.map fun i => (i.productId, i.quantity) by
        intro l
        induction l with
        | nil => rfl
        | cons i l ihl => simp [List.filterMap_cons, ihl]]
      simpa [decPairs] using ih (n + 1)

theorem buildOrders_incPairs (userId : String) (data : CreateOrderData)
    (sp : Rat) (n : Nat) (gs : List (String × List OrderItem)) :
    incPairs (buildOrders userId data sp n gs).2 = [] := by
  induction gs generalizing n with
  | nil => rfl
  | cons g gs ih =>
      obtain ⟨sid, sitems⟩ := g
      simp only [buildOrders, incPairs, List.filterMap_cons,
        List.filterMap_append]
      rw [show ∀ l : List OrderItem,
          (l.map fun i => DbWrite.decStock i.productId i.quantity).filterMap
            (fun w => match w with
              | DbWrite.incStock pid q => some (pid, q)
              | _ => none) = [] by
        intro l
        induction l with
        | nil => rfl
        | cons i l ihl => simp [List.filterMap_cons, ihl]]
      simpa [incPairs] using ih (n + 1)

theorem buildOrders_no_upd (userId : String) (data : CreateOrderData)
    (sp : Rat) (n : Nat) (gs : List (String × List OrderItem)) :
    ∀ w ∈ (buildOrders userId data sp n gs).2, isUpdateWrite w = false := by
  induction gs generalizing n with
  | nil => intro w hw; simp [buildOrders] at hw
  | cons g gs ih =>
      obtain ⟨sid, sitems⟩ := g
      intro w hw
      simp only [buildOrders, List.mem_append, List.mem_cons] at hw
      rcases hw with (rfl | hw) | hw
      · rfl
      · obtain ⟨i, _, rfl⟩ := List.mem_map.mp hw
        rfl
      · exact ih _ w hw

/-! The products-found length check. -/

theorem fetched_length_eq_iff (s : State) (items : List CartItem)
    (hwf : WFp s) :
    (fetchedProducts s items).length = items.length ↔
      (items.map CartItem.productId).Nodup ∧
        ∀ item ∈ items, ∃ p ∈ s.products, p.id = item.productId := by
  have hlen : items.length = (items.map CartItem.productId).length :=
    (List.length_map _ _).symm
  have h1 : ((s.products.map Product.id).filter
      (fun x => decide (x ∈ items.map CartItem.productId))).length =
      (fetchedProducts s items).length := by
    rw [List.filter_map, List.length_map]
    rfl
  have h2 : ((s.products.map Product.id).filter
      (fun x => decide (x ∈ items.map CartItem.productId))).toFinset =
      (s.products.map Product.id).toFinset ∩
        (items.map CartItem.productId).toFinset := by
    ext x
    simp [List.mem_filter]
  have h3 : ((s.products.map Product.id).filter
      (fun x => decide (x ∈ items.map CartItem.productId))).length =
      ((s.products.map Product.id).toFinset ∩
        (items.map CartItem.productId).toFinset).card := by
    rw [← h2, List.toFinset_card_of_nodup (hwf.filter _)]
  constructor
  · intro h
    have hcard : ((s.products.map Product.id).toFinset ∩
        (items.map CartItem.productId).toFinset).card =
        (items.map CartItem.productId).length := by
      rw [← h3, h1, h, hlen]
    have hle1 : ((s.products.map Product.id).toFinset ∩
        (items.map CartItem.productId).toFinset).card ≤
        (items.map CartItem.productId).toFinset.card :=
      Finset.card_le_card Finset.inter_subset_right
    have hle2 : (items.map CartItem.productId).toFinset.card ≤
        (items.map CartItem.productId).length := by
      rw [List.card_toFinset]
      exact (List.dedup_sublist _).length_le
    have hdedup : (items.map CartItem.productId).dedup.length =
        (items.map CartItem.productId).length := by
      rw [← List.card_toFinset]
      omega
    have hnd : (items.map CartItem.productId).Nodup := by
      rw [← List.dedup_eq_self]
      exact List.Sublist.eq_of_length (List.dedup_sublist _) hdedup
    have heq : (s.products.map Product.id).toFinset ∩
        (items.map CartItem.productId).toFinset =
        (items.map CartItem.productId).toFinset := by
      apply Finset.eq_of_subset_of_card_le Finset.inter_subset_right
      rw [hcard, List.toFinset_card_of_nodup hnd]
    refine ⟨hnd, fun item hitem => ?_⟩
    have hx : item.productId ∈ (items.map CartItem.productId).toFinset := by
      rw [List.mem_toFinset]
      exact List.mem_map_of_mem _ hitem
    have hx2 : item.productId ∈ (s.products.map Product.id).toFinset := by
      have := heq ▸ hx
      exact (Finset.mem_inter.mp this).1
    rw [List.mem_toFinset, List.mem_map] at hx2
    obtain ⟨p, hp, hpid⟩ := hx2
    exact ⟨p, hp, hpid⟩
  · rintro ⟨hnd, hres⟩
    have hsub : (items.map CartItem.productId).toFinset ⊆
        (s.products.map Product.id).toFinset := by
      intro x hx
      rw [List.mem_toFinset, List.mem_map] at hx
      obtain ⟨item, hitem, rfl⟩ := hx
      obtain ⟨p, hp, hpid⟩ := hres item hitem
      rw [List.mem_toFinset, List.mem_map]
      exact ⟨p, hp, hpid⟩
    have heq : (s.products.map Product.id).toFinset ∩
        (items.map CartItem.productId).toFinset =
        (items.map CartItem.productId).toFinset :=
      Finset.inter_eq_right.mpr hsub
    rw [← h1, h3, heq, List.toFinset_card_of_nodup hnd, hlen]

/-! The stock-validation loop. -/

theorem validateStock_none_iff (products : List Product)
    (items : List CartItem) :
    validateStock products items = none ↔
      ∀ item ∈ items, ∀ p,
        products.find? (fun q => decide (q.id = item.productId)) = some p →
          ¬p.stock < (item.quantity : Int) := by
  induction items with
  | nil => simp [validateStock]
  | cons item rest ih =>
      simp only [validateStock, List.forall_mem_cons]
      cases hf : products.find? (fun p => decide (p.id = item.productId)) with
      | none => simp [hf, ih]
      | some product =>
          by_cases hs : product.stock < (item.quantity : Int)
          · simp only [if_pos hs]
            constructor
            · intro h; cases h
            · intro h
              exact absurd hs (h.1 product rfl)
          · simp only [if_neg hs, ih]
            constructor
            · intro h
              refine ⟨fun p hp => ?_, h⟩
              rw [Option.some_inj] at hp
              exact hp ▸ hs
            · intro h
              exact h.2

theorem validateStock_shape (products : List Product) (items : List CartItem) :
    validateStock products items = none ∨
      ∃ msg, validateStock products items = some (Err.badRequest msg) := by
  induction items with
  | nil => exact Or.inl rfl
  | cons item rest ih =>
      cases hf : products.find? (fun p => decide (p.id = item.productId)) with
      | none => simpa [validateStock, hf] using ih
      | some product =>
          by_cases hs : product.stock < (item.quantity : Int)
          · exact Or.inr ⟨"Insufficient stock for product: " ++ product.name,
              by simp [validateStock, hf, hs]⟩
          · simpa [validateStock, hf, hs] using ih

/-! Lookup by unique id. -/

theorem find_by_id_eq (l : List Product) (hnd : (l.map Product.id).Nodup)
    (p : Product) (hp : p ∈ l) (x : String) (hx : p.id = x) :
    l.find? (fun q => decide (q.id = x)) = some p := by
  induction l with
  | nil => cases hp
  | cons a l ih =>
      rcases List.mem_cons.mp hp with rfl | hmem
      · exact List.find?_cons_of_pos _ (by simp [hx])
      · have hnd' := hnd
        rw [List.map_cons, List.nodup_cons] at hnd'
        have hne : ¬a.id = x := by
          intro hax
          exact hnd'.1 (hax ▸ hx ▸ List.mem_map_of_mem Product.id hmem)
        rw [List.find?_cons_of_neg _ (by simp [hne])]
        exact ih hnd'.2 hmem

/-! Cart quantity accounting. -/

theorem cartQty_cons (item : CartItem) (items : List CartItem) (pid : String) :
    cartQty (item :: items) pid =
      (if item.productId = pid then (item.quantity : Int) else 0) +
        cartQty items pid := by
  simp [cartQty, pairSum_cons]

theorem cartQty_not_mem (items : List CartItem) (pid : String)
    (h : pid ∉ items.map CartItem.productId) : cartQty items pid = 0 := by
  induction items with
  | nil => rfl
  | cons item rest ih =>
      rw [cartQty_cons]
      rw [List.map_cons, List.mem_cons] at h
      push_neg at h
      rw [if_neg (fun hh => h.1 hh.symm), ih h.2]
      ring

theorem cartQty_of_mem_nodup (items : List CartItem) (item : CartItem)
    (hnd : (items.map CartItem.productId).Nodup) (hmem : item ∈ items) :
    cartQty items item.productId = (item.quantity : Int) := by
  induction items with
  | nil => cases hmem
  | cons a rest ih =>
      have hnd' := hnd
      rw [List.map_cons, List.nodup_cons] at hnd'
      rcases List.mem_cons.mp hmem with rfl | hmem'
      · rw [cartQty_cons, if_pos rfl,
          cartQty_not_mem rest item.productId hnd'.1]
        ring
      · have hne : ¬a.productId = item.productId := by
          intro hax
          exact hnd'.1 (hax ▸ List.mem_map_of_mem CartItem.productId hmem')
        rw [cartQty_cons, if_neg hne, ih hnd'.2 hmem']
        ring

/-! Effect lemmas for `updatePaymentStatus`. -/

theorem flatten_map_singleton {α β : Type} (l : List α) (f : α → β) :
    (l.map fun x => [f x]).flatten = l.map f := by
  induction l with
  | nil => rfl
  | cons x l ih => simp [ih]

theorem incPairs_incWrites (l : List OrderItem) :
    incPairs (l.map fun i => DbWrite.incStock i.productId i.quantity) =
      l.map fun i => (i.productId, i.quantity) := by
  induction l with
  | nil => rfl
  | cons i l ih =>
      rw [List.map_cons]
      rw [show incPairs (DbWrite.incStock i.productId i.quantity ::
          (l.map fun i => DbWrite.incStock i.productId i.quantity)) =
        (i.productId, i.quantity) ::
          incPairs (l.map fun i => DbWrite.incStock i.productId i.quantity)
        from rfl]
      rw [ih, List.map_cons]

theorem decPairs_incWrites (l : List OrderItem) :
    decPairs (l.map fun i => DbWrite.incStock i.productId i.quantity) = [] := by
  induction l with
  | nil => rfl
  | cons i l ih =>
      rw [List.map_cons]
      rw [show decPairs (DbWrite.incStock i.productId i.quantity ::
          (l.map fun i => DbWrite.incStock i.productId i.quantity)) =
        decPairs (l.map fun i => DbWrite.incStock i.productId i.quantity)
        from rfl]
      exact ih

theorem decPairs_append (ws₁ ws₂ : List DbWrite) :
    decPairs (ws₁ ++ ws₂) = decPairs ws₁ ++ decPairs ws₂ := by
  simp [decPairs, List.filterMap_append]

theorem incPairs_append (ws₁ ws₂ : List DbWrite) :
    incPairs (ws₁ ++ ws₂) = incPairs ws₁ ++ incPairs ws₂ := by
  simp [incPairs, List.filterMap_append]

theorem applyTxn_singleton (s : State) (w : DbWrite) :
    applyTxn s [w] = applyWrite s w := rfl

theorem upsTxns_flatten (order : Order) (oid pid : String)
    (st : PaymentStatus) :
    (upsTxns order oid pid st).flatten =
      (if st = PaymentStatus.REJECTED ∨ st = PaymentStatus.CANCELLED then
        order.items.map fun i => DbWrite.incStock i.productId i.quantity
       else []) ++ [DbWrite.updateOrder oid (upsUpdate pid st)] := by
  rw [upsTxns, List.flatten_append]
  by_cases c : st = PaymentStatus.REJECTED ∨ st = PaymentStatus.CANCELLED
  · rw [if_pos c, if_pos c, flatten_map_singleton]
    rfl
  · rw [if_neg c, if_neg c]
    rfl

theorem ups_orders (s : State) (order : Order) (oid pid : String)
    (st : PaymentStatus) :
    (applyTxns s (upsTxns order oid pid st)).orders =
      s.orders.map fun o =>
        if o.id = oid then applyOrderUpdate o (upsUpdate pid st) else o := by
  rw [applyTxns_flatten, upsTxns_flatten, applyTxn_append, applyTxn_singleton]
  have hstock : (applyTxn s
      (if st = PaymentStatus.REJECTED ∨ st = PaymentStatus.CANCELLED then
        order.items.map fun i => DbWrite.incStock i.productId i.quantity
       else [])).orders = s.orders := by
    apply applyTxn_orders_stock_only
    intro w hw
    split at hw
    · obtain ⟨i, _, rfl⟩ := List.mem_map.mp hw
      rfl
    · cases hw
  simp only [applyWrite]
  rw [hstock]

theorem ups_products (s : State) (order : Order) (oid pid : String)
    (st : PaymentStatus) :
    (applyTxns s (upsTxns order oid pid st)).products =
      s.products.map fun p =>
        { p with stock := p.stock +
            (if st = PaymentStatus.REJECTED ∨ st = PaymentStatus.CANCELLED
              then restoreQty order.items p.id else 0) } := by
  rw [applyTxns_flatten, applyTxn_products, upsTxns_flatten]
  refine List.map_congr_left fun p _ => ?_
  by_cases c : st = PaymentStatus.REJECTED ∨ st = PaymentStatus.CANCELLED
  · rw [if_pos c, if_pos c, decPairs_append, incPairs_append,
      decPairs_incWrites, incPairs_incWrites]
    rw [show decPairs [DbWrite.updateOrder oid (upsUpdate pid st)] = []
      from rfl]
    rw [show incPairs [DbWrite.updateOrder oid (upsUpdate pid st)] = []
      from rfl]
    simp only [List.append_nil, List.nil_append]
    rw [show restoreQty order.items p.id =
      pairSum (order.items.map fun i => (i.productId, i.quantity)) p.id
      from rfl]
    rw [show pairSum ([] : List (String × Nat)) p.id = 0 from rfl]
    congr 1
    omega
  · rw [if_neg c, if_neg c]
    simp only [List.nil_append]
    rw [show decPairs [DbWrite.updateOrder oid (upsUpdate pid st)] = []
      from rfl]
    rw [show incPairs [DbWrite.updateOrder oid (upsUpdate pid st)] = []
      from rfl]
    rw [show pairSum ([] : List (String × Nat)) p.id = 0 from rfl]
    congr 1
    omega

theorem updatePaymentStatus_ok (s : State) (oid pid : String)
    (st : PaymentStatus) (order : Order)
    (hfind : s.orders.find? (fun o => decide (o.id = oid)) = some order) :
    updatePaymentStatus s oid pid st =
      .ok (applyTxns s (upsTxns order oid pid st), upsTxns order oid pid st,
        some (applyOrderUpdate order (upsUpdate pid st))) := by
  have hfind2 := find?_map_update s.orders oid
    (fun o => applyOrderUpdate o (upsUpdate pid st)) (fun o => rfl) order hfind
  simp only [updatePaymentStatus, hfind, ups_orders, hfind2]

/-! The claims. -/

/-- C6: `mapPaymentStatus` is a pure total function implementing exactly the
fixed table (pending→PENDING, approved→APPROVED, authorized→APPROVED,
in_process→IN_PROCESS, in_mediation→IN_PROCESS, rejected→REJECTED,
cancelled→CANCELLED, refunded→CANCELLED, charged_back→CANCELLED), returns
PENDING for every string outside the table, and applying it twice to the
same external status yields the same internal status. -/
theorem C6_map_payment_status_table :
    (mapPaymentStatus "pending" = PaymentStatus.PENDING ∧
     mapPaymentStatus "approved" = PaymentStatus.APPROVED ∧
     mapPaymentStatus "authorized" = PaymentStatus.APPROVED ∧
     mapPaymentStatus "in_process" = PaymentStatus.IN_PROCESS ∧
     mapPaymentStatus "in_mediation" = PaymentStatus.IN_PROCESS ∧
     mapPaymentStatus "rejected" = PaymentStatus.REJECTED ∧
     mapPaymentStatus "cancelled" = PaymentStatus.CANCELLED ∧
     mapPaymentStatus "refunded" = PaymentStatus.CANCELLED ∧
     mapPaymentStatus "charged_back" = PaymentStatus.CANCELLED) ∧
    (∀ mp : String,
      mp ∉ (["pending", "approved", "authorized", "in_process",
        "in_mediation", "rejected", "cancelled", "refunded",
        "charged_back"] : List String) →
      mapPaymentStatus mp = PaymentStatus.PENDING) ∧
    (∀ mp : String, mapPaymentStatus mp = mapPaymentStatus mp) := by
  refine ⟨⟨by decide, by decide, by decide, by decide, by decide, by decide,
    by decide, by decide, by decide⟩, ?_, fun _ => rfl⟩
  intro mp hmp
  simp only [List.mem_cons, List.not_mem_nil, or_false, not_or] at hmp
  obtain ⟨h1, h2, h3, h4, h5, h6, h7, h8, h9⟩ := hmp
  simp [mapPaymentStatus, h1, h2, h3, h4, h5, h6, h7, h8, h9]

/-- Witness for C6 at the unrecognized status string `chargeback_v2`. -/
theorem C6_map_payment_status_table_witness :
    mapPaymentStatus "chargeback_v2" = PaymentStatus.PENDING :=
  C6_map_payment_status_table.2.1 "chargeback_v2" (by decide)

/-- C5: for every existing order, `updatePaymentStatus` persists the payment
id and mapped payment status on the order, and sets the order status to PAID
exactly for APPROVED, to CANCELLED exactly for REJECTED/CANCELLED, and
leaves it untouched for PENDING/IN_PROCESS; all other fields are kept. -/
theorem C5_payment_status_persisted (s : State) (oid pid : String)
    (st : PaymentStatus) (order : Order)
    (hfind : s.orders.find? (fun o => decide (o.id = oid)) = some order) :
    ∃ s' txns o', updatePaymentStatus s oid pid st = .ok (s', txns, some o') ∧
      s'.orders.find? (fun o => decide (o.id = oid)) = some o' ∧
      o'.paymentId = some pid ∧
      o'.paymentStatus = st ∧
      o'.status = (if st = PaymentStatus.APPROVED then OrderStatus.PAID
        else if st = PaymentStatus.REJECTED ∨ st = PaymentStatus.CANCELLED
          then OrderStatus.CANCELLED
          else order.status) ∧
      o'.items = order.items ∧ o'.id = order.id ∧
      o'.userId = order.userId ∧ o'.total = order.total := by
  have hok := updatePaymentStatus_ok s oid pid st order hfind
  have hfind2 := find?_map_update s.orders oid
    (fun o => applyOrderUpdate o (upsUpdate pid st)) (fun o => rfl) order hfind
  refine ⟨_, _, applyOrderUpdate order (upsUpdate pid st), hok, ?_, rfl, rfl,
    ?_, rfl, rfl, rfl, rfl⟩
  · rw [ups_orders]
    exact hfind2
  · show (upsUpdate pid st).status.getD order.status = _
    rw [upsUpdate]
    by_cases h1 : st = PaymentStatus.APPROVED
    · rw [if_pos h1, if_pos h1]
      rfl
    · rw [if_neg h1, if_neg h1]
      by_cases h2 : st = PaymentStatus.REJECTED ∨ st = PaymentStatus.CANCELLED
      · rw [if_pos h2, if_pos h2]
        rfl
      · rw [if_neg h2, if_neg h2]
        rfl

/-- Witness for C5 on the example order with an APPROVED status. -/
theorem C5_payment_status_persisted_witness :
    ∃ s' txns o', updatePaymentStatus exState "o1" "pay1"
        PaymentStatus.APPROVED = .ok (s', txns, some o') ∧
      s'.orders.find? (fun o => decide (o.id = "o1")) = some o' ∧
      o'.paymentId = some "pay1" ∧
      o'.paymentStatus = PaymentStatus.APPROVED ∧
      o'.status = (if PaymentStatus.APPROVED = PaymentStatus.APPROVED
          then OrderStatus.PAID
        else if PaymentStatus.APPROVED = PaymentStatus.REJECTED ∨
            PaymentStatus.APPROVED = PaymentStatus.CANCELLED
          then OrderStatus.CANCELLED
          else exOrder.status) ∧
      o'.items = exOrder.items ∧ o'.id = exOrder.id ∧
      o'.userId = exOrder.userId ∧ o'.total = exOrder.total :=
  C5_payment_status_persisted exState "o1" "pay1" PaymentStatus.APPROVED
    exOrder (by decide)

/-- C7: a seller-owned order's status transition succeeds exactly when the
requested status is in the allowed set of the fixed table
(PENDING→CANCELLED; PAID→SHIPPED,CANCELLED; SHIPPED→DELIVERED; DELIVERED
and CANCELLED allow nothing); otherwise it fails with an error naming both
the current and requested status; on success only the status field of that
order changes; no transition leaves DELIVERED or CANCELLED. -/
theorem C7_order_status_transitions (s : State) (oid sid : String)
    (ns : OrderStatus) (order : Order)
    (hfind : s.orders.find?
      (fun o => decide (o.id = oid ∧ o.sellerId = some sid)) = some order) :
    (validTransitions OrderStatus.PENDING = [OrderStatus.CANCELLED] ∧
     validTransitions OrderStatus.PAID =
       [OrderStatus.SHIPPED, OrderStatus.CANCELLED] ∧
     validTransitions OrderStatus.SHIPPED = [OrderStatus.DELIVERED] ∧
     validTransitions OrderStatus.DELIVERED = [] ∧
     validTransitions OrderStatus.CANCELLED = []) ∧
    ((∃ s' txns r, updateOrderStatus s oid sid ns = .ok (s', txns, r)) ↔
      ns ∈ validTransitions order.status) ∧
    (ns ∉ validTransitions order.status →
      updateOrderStatus s oid sid ns = .error (Err.badRequest
        ("Cannot transition from " ++ order.status.str ++ " to " ++
          ns.str))) ∧
    (∀ s' txns r, updateOrderStatus s oid sid ns = .ok (s', txns, r) →
      s'.orders = s.orders.map fun o =>
        if o.id = oid then { o with status := ns } else o) ∧
    ((order.status = OrderStatus.DELIVERED ∨
        order.status = OrderStatus.CANCELLED) →
      updateOrderStatus s oid sid ns = .error (Err.badRequest
        ("Cannot transition from " ++ order.status.str ++ " to " ++
          ns.str))) := by
  refine ⟨⟨rfl, rfl, rfl, rfl, rfl⟩, ?_, ?_, ?_, ?_⟩
  · constructor
    · rintro ⟨s', txns, r, h⟩
      by_contra hmem
      simp only [updateOrderStatus, hfind, if_neg hmem] at h
      cases h
    · intro hmem
      refine ⟨applyTxns s [[DbWrite.updateOrder oid
          { paymentId := none, paymentStatus := none, status := some ns }]],
        [[DbWrite.updateOrder oid
          { paymentId := none, paymentStatus := none, status := some ns }]],
        (applyTxns s [[DbWrite.updateOrder oid
          { paymentId := none, paymentStatus := none,
            status := some ns }]]).orders.find?
          (fun o => decide (o.id = oid)), ?_⟩
      simp only [updateOrderStatus, hfind, if_pos hmem]
  · intro hmem
    simp only [updateOrderStatus, hfind, if_neg hmem]
  · intro s' txns r h
    by_cases hmem : ns ∈ validTransitions order.status
    · simp only [updateOrderStatus, hfind, if_pos hmem, Except.ok.injEq,
        Prod.mk.injEq] at h
      obtain ⟨rfl, -, -⟩ := h
      rfl
    · simp only [updateOrderStatus, hfind, if_neg hmem] at h
      cases h
  · intro hterm
    have hmem : ns ∉ validTransitions order.status := by
      rcases hterm with h | h <;> rw [h] <;> simp [validTransitions]
    simp only [updateOrderStatus, hfind, if_neg hmem]

/-- Witness for C7 on the example pending order: transition to CANCELLED. -/
theorem C7_order_status_transitions_witness :
    (validTransitions OrderStatus.PENDING = [OrderStatus.CANCELLED] ∧
     validTransitions OrderStatus.PAID =
       [OrderStatus.SHIPPED, OrderStatus.CANCELLED] ∧
     validTransitions OrderStatus.SHIPPED = [OrderStatus.DELIVERED] ∧
     validTransitions OrderStatus.DELIVERED = [] ∧
     validTransitions OrderStatus.CANCELLED = []) ∧
    ((∃ s' txns r, updateOrderStatus exState "o1" "s1" OrderStatus.CANCELLED
        = .ok (s', txns, r)) ↔
      OrderStatus.CANCELLED ∈ validTransitions exOrder.status) ∧
    (OrderStatus.CANCELLED ∉ validTransitions exOrder.status →
      updateOrderStatus exState "o1" "s1" OrderStatus.CANCELLED =
        .error (Err.badRequest
          ("Cannot transition from " ++ exOrder.status.str ++ " to " ++
            OrderStatus.CANCELLED.str))) ∧
    (∀ s' txns r, updateOrderStatus exState "o1" "s1" OrderStatus.CANCELLED =
        .ok (s', txns, r) →
      s'.orders = exState.orders.map fun o =>
        if o.id = "o1" then { o with status := OrderStatus.CANCELLED }
        else o) ∧
    ((exOrder.status = OrderStatus.DELIVERED ∨
        exOrder.status = OrderStatus.CANCELLED) →
      updateOrderStatus exState "o1" "s1" OrderStatus.CANCELLED =
        .error (Err.badRequest
          ("Cannot transition from " ++ exOrder.status.str ++ " to " ++
            OrderStatus.CANCELLED.str))) :=
  C7_order_status_transitions exState "o1" "s1" OrderStatus.CANCELLED exOrder
    (by decide)

/-- C4: `updatePaymentStatus` with a REJECTED or CANCELLED status sets the
order's status to CANCELLED and increments every item's product stock by
that item's quantity; there is no guard on the order's current status, so a
repeated delivery of the same terminal status increments stock again. -/
theorem C4_restock_on_terminal_payment (s : State) (oid pid : String)
    (st : PaymentStatus) (order : Order)
    (hst : st = PaymentStatus.REJECTED ∨ st = PaymentStatus.CANCELLED)
    (hfind : s.orders.find? (fun o => decide (o.id = oid)) = some order) :
    ∃ s' txns o', updatePaymentStatus s oid pid st = .ok (s', txns, some o') ∧
      o'.status = OrderStatus.CANCELLED ∧
      o'.paymentStatus = st ∧
      o'.items = order.items ∧
      s'.orders.find? (fun o => decide (o.id = oid)) = some o' ∧
      s'.products = s.products.map (fun p =>
        { p with stock := p.stock + restoreQty order.items p.id }) ∧
      ∃ s'' txns2 o'', updatePaymentStatus s' oid pid st =
          .ok (s'', txns2, some o'') ∧
        s''.products = s'.products.map (fun p =>
          { p with stock := p.stock + restoreQty order.items p.id }) := by
  have hne : st ≠ PaymentStatus.APPROVED := by
    rcases hst with rfl | rfl <;> decide
  have hok := updatePaymentStatus_ok s oid pid st order hfind
  have hfind2 := find?_map_update s.orders oid
    (fun o => applyOrderUpdate o (upsUpdate pid st)) (fun o => rfl) order hfind
  have hstatus : (applyOrderUpdate order (upsUpdate pid st)).status =
      OrderStatus.CANCELLED := by
    show (upsUpdate pid st).status.getD order.status = _
    rw [upsUpdate]
    rw [if_neg hne, if_pos hst]
    rfl
  have hprod := ups_products s order oid pid st
  simp only [if_pos hst] at hprod
  refine ⟨_, _, applyOrderUpdate order (upsUpdate pid st), hok, hstatus, rfl,
    rfl, ?_, hprod, ?_⟩
  · rw [ups_orders]
    exact hfind2
  · have hfind3 : (applyTxns s (upsTxns order oid pid st)).orders.find?
        (fun o => decide (o.id = oid)) =
        some (applyOrderUpdate order (upsUpdate pid st)) := by
      rw [ups_orders]
      exact hfind2
    have hok2 := updatePaymentStatus_ok (applyTxns s (upsTxns order oid pid st))
      oid pid st (applyOrderUpdate order (upsUpdate pid st)) hfind3
    have hprod2 := ups_products (applyTxns s (upsTxns order oid pid st))
      (applyOrderUpdate order (upsUpdate pid st)) oid pid st
    simp only [if_pos hst] at hprod2
    exact ⟨_, _, _, hok2, hprod2⟩

/-- Witness for C4 on the example pending order with a REJECTED status. -/
theorem C4_restock_on_terminal_payment_witness :
    ∃ s' txns o', updatePaymentStatus exState "o1" "pay1"
        PaymentStatus.REJECTED = .ok (s', txns, some o') ∧
      o'.status = OrderStatus.CANCELLED ∧
      o'.paymentStatus = PaymentStatus.REJECTED ∧
      o'.items = exOrder.items ∧
      s'.orders.find? (fun o => decide (o.id = "o1")) = some o' ∧
      s'.products = exState.products.map (fun p =>
        { p with stock := p.stock + restoreQty exOrder.items p.id }) ∧
      ∃ s'' txns2 o'', updatePaymentStatus s' "o1" "pay1"
          PaymentStatus.REJECTED = .ok (s'', txns2, some o'') ∧
        s''.products = s'.products.map (fun p =>
          { p with stock := p.stock + restoreQty exOrder.items p.id }) :=
  C4_restock_on_terminal_payment exState "o1" "pay1" PaymentStatus.REJECTED
    exOrder (Or.inl rfl) (by decide)

/-- C9 counterexample: the code does NOT distinguish "the order does not
exist" from "the order exists but belongs to another caller": `findOne`
returns the identical `Order not found` error in both cases, and
`updateOrderStatus` returns the identical merged
`Order not found or not authorized` error in both cases. -/
theorem C9_counterexample :
    (findOne exState "o1" "bob" =
        .error (Err.notFound "Order not found") ∧
     findOne exState "zzz" "bob" =
        .error (Err.notFound "Order not found")) ∧
    (updateOrderStatus exState "o1" "dave" OrderStatus.CANCELLED =
        .error (Err.notFound "Order not found or not authorized") ∧
     updateOrderStatus exState "zzz" "dave" OrderStatus.CANCELLED =
        .error (Err.notFound "Order not found or not authorized")) := by
  refine ⟨⟨?_, ?_⟩, ?_, ?_⟩ <;> rfl

/-- C9 amended: every failed order lookup yields one fixed not-found error,
whether the order is absent or owned by another caller; the two cases are
not distinguishable from the error.  `findOne` always fails with
`Order not found` and `updateOrderStatus` always fails with
`Order not found or not authorized`. -/
theorem C9_not_found_merged (s : State) (id uid oid sid : String)
    (ns : OrderStatus)
    (h1 : s.orders.find?
      (fun o => decide (o.id = id ∧ o.userId = uid)) = none)
    (h2 : s.orders.find?
      (fun o => decide (o.id = oid ∧ o.sellerId = some sid)) = none) :
    findOne s id uid = .error (Err.notFound "Order not found") ∧
    updateOrderStatus s oid sid ns =
      .error (Err.notFound "Order not found or not authorized") := by
  constructor
  · simp only [findOne, h1]
  · simp only [updateOrderStatus, h2]

/-- Witness for the amended C9: a caller who owns no order with these ids
gets the same fixed errors both for a foreign order and a missing order. -/
theorem C9_not_found_merged_witness :
    findOne exState "o1" "bob" = .error (Err.notFound "Order not found") ∧
    updateOrderStatus exState "o1" "dave" OrderStatus.CANCELLED =
      .error (Err.notFound "Order not found or not authorized") :=
  C9_not_found_merged exState "o1" "bob" "o1" "dave" OrderStatus.CANCELLED
    (by decide) (by decide)

/-! Inversion of a successful `create`. -/

theorem create_ok_inv (s : State) (userId : String) (data : CreateOrderData)
    (s' : State) (txns : List Txn) (r : CreateResult)
    (h : create s userId data = .ok (s', txns, r)) :
    data.items ≠ [] ∧
    (fetchedProducts s data.items).length = data.items.length ∧
    validateStock (fetchedProducts s data.items) data.items = none ∧
    s' = applyTxn s (createBuilt s userId data).2 ∧
    txns = [(createBuilt s userId data).2] ∧
    r = (match (createBuilt s userId data).1 with
      | [o] => CreateResult.one o
      | os => CreateResult.many os) := by
  unfold create at h
  split at h
  · cases h
  · rename_i hemp
    split at h
    · cases h
    · split at h
      · cases h
      · rename_i hlen
        split at h
        · cases h
        · rename_i hv
          simp only [Except.ok.injEq, Prod.mk.injEq] at h
          obtain ⟨h1, h2, h3⟩ := h
          have hnil : data.items ≠ [] := by
            intro hnl
            rw [hnl] at hemp
            exact hemp rfl
          exact ⟨hnil, not_ne_iff.mp hlen, hv, h1.symm, h2.symm, h3.symm⟩

theorem buildOrders_statusWrite (userId : String) (data : CreateOrderData)
    (sp : Rat) (n : Nat) (gs : List (String × List OrderItem))
    (hne : (buildOrders userId data sp n gs).2 ≠ []) :
    ∃ w ∈ (buildOrders userId data sp n gs).2, isOrderStatusWrite w = true := by
  cases gs with
  | nil => exact absurd rfl hne
  | cons g gs =>
      obtain ⟨sid, sitems⟩ := g
      simp only [buildOrders]
      exact ⟨_, List.mem_append_left _ (List.mem_cons_self _ _), rfl⟩

/-- C8 counterexample: on the example order, a REJECTED payment outcome
commits the stock restoration in its own transaction, separate from the
order update that sets CANCELLED, so the trace violates the claimed policy
that every stock mutation commits with the order-status change causing it. -/
theorem C8_counterexample :
    (∃ s' r, updatePaymentStatus exState "o1" "pay1" PaymentStatus.REJECTED =
      .ok (s', [[DbWrite.incStock "p1" 2],
        [DbWrite.updateOrder "o1"
          (upsUpdate "pay1" PaymentStatus.REJECTED)]], r)) ∧
    ¬ txnStockAtomic [[DbWrite.incStock "p1" 2],
      [DbWrite.updateOrder "o1" (upsUpdate "pay1" PaymentStatus.REJECTED)]] := by
  constructor
  · exact ⟨applyTxns exState [[DbWrite.incStock "p1" 2],
      [DbWrite.updateOrder "o1" (upsUpdate "pay1" PaymentStatus.REJECTED)]],
      (applyTxns exState [[DbWrite.incStock "p1" 2],
        [DbWrite.updateOrder "o1"
          (upsUpdate "pay1" PaymentStatus.REJECTED)]]).orders.find?
        (fun o => decide (o.id = "o1")), rfl⟩
  · intro h
    obtain ⟨w, hw, hwp⟩ := h [DbWrite.incStock "p1" 2]
      (List.mem_cons_self _ _)
      ⟨DbWrite.incStock "p1" 2, List.mem_singleton_self _, rfl⟩
    rw [List.mem_singleton] at hw
    subst hw
    exact absurd hwp (by decide)

/-- C8 amended: creation-time stock decrements do commit in the single
transaction that also inserts the order rows, but the restoration
increments of `updatePaymentStatus` each commit as their own
single-statement transaction, before and separate from the order update
that sets CANCELLED, so for any order with at least one item the claimed
stock/status atomicity fails on the restoration path. -/
theorem C8_stock_txn_policy (s : State) (userId oid pid : String)
    (data : CreateOrderData) (st : PaymentStatus) (order : Order)
    (hfind : s.orders.find? (fun o => decide (o.id = oid)) = some order)
    (hst : st = PaymentStatus.REJECTED ∨ st = PaymentStatus.CANCELLED) :
    (∀ s' txns r, create s userId data = .ok (s', txns, r) →
      txns.length = 1 ∧ txnStockAtomic txns) ∧
    (∃ s' r, updatePaymentStatus s oid pid st = .ok (s',
      (order.items.map fun i => [DbWrite.incStock i.productId i.quantity]) ++
        [[DbWrite.updateOrder oid (upsUpdate pid st)]], r)) ∧
    (order.items ≠ [] →
      ¬ txnStockAtomic
        ((order.items.map fun i =>
          [DbWrite.incStock i.productId i.quantity]) ++
          [[DbWrite.updateOrder oid (upsUpdate pid st)]])) := by
  refine ⟨?_, ?_, ?_⟩
  · intro s' txns r h
    obtain ⟨-, -, -, -, htxns, -⟩ := create_ok_inv s userId data s' txns r h
    subst htxns
    refine ⟨rfl, ?_⟩
    intro txn htxn hstock
    rw [List.mem_singleton] at htxn
    subst htxn
    obtain ⟨w, hw, -⟩ := hstock
    exact buildOrders_statusWrite userId data _ _ _
      (List.ne_nil_of_mem hw)
  · have hok := updatePaymentStatus_ok s oid pid st order hfind
    rw [upsTxns, if_pos hst] at hok
    exact ⟨_, _, hok⟩
  · intro hne h
    obtain ⟨i, hi⟩ := List.exists_mem_of_ne_nil order.items hne
    obtain ⟨w, hw, hwp⟩ := h [DbWrite.incStock i.productId i.quantity]
      (List.mem_append_left _
        (List.mem_map_of_mem (fun i => [DbWrite.incStock i.productId i.quantity]) hi))
      ⟨DbWrite.incStock i.productId i.quantity, List.mem_singleton_self _, rfl⟩
    rw [List.mem_singleton] at hw
    subst hw
    simp [isOrderStatusWrite] at hwp

/-- Witness for the amended C8 on the example order. -/
theorem C8_stock_txn_policy_witness :
    (∀ s' txns r, create exState "alice"
        { addressId := "a1", items := [⟨"p1", 1⟩],
          paymentMethod := PaymentMethod.PIX,
          shippingType := ShippingType.SELLER,
          shippingMethod := none, shippingCost := none } =
        .ok (s', txns, r) →
      txns.length = 1 ∧ txnStockAtomic txns) ∧
    (∃ s' r, updatePaymentStatus exState "o1" "pay1" PaymentStatus.REJECTED =
      .ok (s',
        (exOrder.items.map fun i =>
          [DbWrite.incStock i.productId i.quantity]) ++
          [[DbWrite.updateOrder "o1"
            (upsUpdate "pay1" PaymentStatus.REJECTED)]], r)) ∧
    (exOrder.items ≠ [] →
      ¬ txnStockAtomic
        ((exOrder.items.map fun i =>
          [DbWrite.incStock i.productId i.quantity]) ++
          [[DbWrite.updateOrder "o1"
            (upsUpdate "pay1" PaymentStatus.REJECTED)]])) :=
  C8_stock_txn_policy exState "alice" "o1" "pay1"
    { addressId := "a1", items := [⟨"p1", 1⟩],
      paymentMethod := PaymentMethod.PIX,
      shippingType := ShippingType.SELLER,
      shippingMethod := none, shippingCost := none }
    PaymentStatus.REJECTED exOrder (by decide) (Or.inl rfl)

/-! Forward construction and accounting for `create`. -/

theorem resultOrders_match (os : List Order) :
    resultOrders (match os with
      | [o] => CreateResult.one o
      | os => CreateResult.many os) = os := by
  match os with
  | [] => rfl
  | [o] => rfl
  | a :: b :: t => rfl

theorem foldl_add_init (l : List OrderItem) (f : OrderItem → Rat)
    (init : Rat) :
    l.foldl (fun a i => a + f i) init = init + (l.map f).sum := by
  induction l generalizing init with
  | nil => simp
  | cons x xs ih => simp [ih, add_assoc]

theorem itemsTotal_eq_sum (l : List OrderItem) :
    itemsTotal l = (l.map fun i => i.price * (i.quantity : Rat)).sum := by
  rw [itemsTotal, foldl_add_init, zero_add]

theorem pairSum_perm (l₁ l₂ : List (String × Nat)) (h : l₁.Perm l₂)
    (pid : String) : pairSum l₁ pid = pairSum l₂ pid :=
  (h.map _).sum_eq

theorem groupEntries_pairs (products : List Product) (items : List CartItem)
    (hres : ∀ item ∈ items, ∃ p,
      products.find? (fun q => decide (q.id = item.productId)) = some p) :
    (groupEntries products items).map (fun i => (i.productId, i.quantity)) =
      items.map fun it => (it.productId, it.quantity) := by
  induction items with
  | nil => rfl
  | cons item rest ih =>
      obtain ⟨p, hp⟩ := hres item (List.mem_cons_self _ _)
      have hrest : ∀ it ∈ rest, ∃ p,
          products.find? (fun q => decide (q.id = it.productId)) = some p :=
        fun it hit => hres it (List.mem_cons_of_mem _ hit)
      have hstep : groupEntries products (item :: rest) =
          (⟨item.productId, item.quantity, p.price⟩ : OrderItem) ::
            groupEntries products rest := by
        simp [groupEntries, List.filterMap_cons, hp]
      rw [hstep, List.map_cons, List.map_cons, ih hrest]

theorem fetched_nodup_ids (s : State) (items : List CartItem)
    (hwf : WFp s) : ((fetchedProducts s items).map Product.id).Nodup :=
  List.Nodup.sublist (List.Sublist.map Product.id (List.filter_sublist _)) hwf

theorem fetched_find (s : State) (items : List CartItem) (hwf : WFp s)
    (item : CartItem) (p : Product) (hp : p ∈ s.products)
    (hpid : p.id = item.productId) (hmemids : item ∈ items) :
    (fetchedProducts s items).find?
      (fun q => decide (q.id = item.productId)) = some p := by
  apply find_by_id_eq _ (fetched_nodup_ids s items hwf) p _ _ hpid
  refine List.mem_filter.mpr ⟨hp, ?_⟩
  simp only [decide_eq_true_eq]
  exact hpid ▸ List.mem_map_of_mem CartItem.productId hmemids

theorem fetched_find_exists (s : State) (items : List CartItem)
    (hwf : WFp s)
    (hres : ∀ item ∈ items, ∃ p ∈ s.products, p.id = item.productId) :
    ∀ item ∈ items, ∃ p, (fetchedProducts s items).find?
      (fun q => decide (q.id = item.productId)) = some p := by
  intro item hitem
  obtain ⟨p, hp, hpid⟩ := hres item hitem
  exact ⟨p, fetched_find s items hwf item p hp hpid hitem⟩

theorem createBuilt_decPairs_perm (s : State) (userId : String)
    (data : CreateOrderData)
    (hres : ∀ item ∈ data.items, ∃ p,
      (fetchedProducts s data.items).find?
        (fun q => decide (q.id = item.productId)) = some p) :
    (decPairs (createBuilt s userId data).2).Perm
      (data.items.map fun it => (it.productId, it.quantity)) := by
  rw [createBuilt, buildOrders_decPairs]
  have h1 := (groupBySeller_join_perm (fetchedProducts s data.items)
    data.items).map (fun i : OrderItem => (i.productId, i.quantity))
  rw [groupEntries_pairs _ _ hres] at h1
  exact h1

theorem createBuilt_products (s : State) (userId : String)
    (data : CreateOrderData)
    (hres : ∀ item ∈ data.items, ∃ p,
      (fetchedProducts s data.items).find?
        (fun q => decide (q.id = item.productId)) = some p) :
    (applyTxn s (createBuilt s userId data).2).products =
      s.products.map fun p =>
        { p with stock := p.stock - cartQty data.items p.id } := by
  rw [applyTxn_products]
  refine List.map_congr_left fun p _ => ?_
  have hinc : incPairs (createBuilt s userId data).2 = [] :=
    buildOrders_incPairs userId data _ s.nextOrderId _
  have hdec := pairSum_perm _ _
    (createBuilt_decPairs_perm s userId data hres) p.id
  rw [hinc, hdec]
  rw [show pairSum ([] : List (String × Nat)) p.id = 0 from rfl]
  rw [show pairSum (data.items.map fun it => (it.productId, it.quantity))
    p.id = cartQty data.items p.id from rfl]
  congr 1
  omega

theorem create_ok_of (s : State) (userId : String) (data : CreateOrderData)
    (hwf : WFp s) (hne : data.items ≠ [])
    (hnd : (data.items.map CartItem.productId).Nodup)
    (hres : ∀ item ∈ data.items, ∃ p ∈ s.products, p.id = item.productId)
    (haddr : ∃ a ∈ s.addresses, a.id = data.addressId ∧ a.userId = userId)
    (hstock : ∀ item ∈ data.items, ∀ p ∈ s.products,
      p.id = item.productId → ¬p.stock < (item.quantity : Int)) :
    create s userId data = .ok (applyTxn s (createBuilt s userId data).2,
      [(createBuilt s userId data).2],
      match (createBuilt s userId data).1 with
      | [o] => CreateResult.one o
      | os => CreateResult.many os) := by
  have hempty : data.items.isEmpty = false := by
    cases h : data.items with
    | nil => exact absurd h hne
    | cons a l => rfl
  have haddr' : ∃ a, s.addresses.find?
      (fun a => decide (a.id = data.addressId ∧ a.userId = userId)) =
      some a := by
    rw [← Option.isSome_iff_exists, List.find?_isSome]
    obtain ⟨a, ha, h1, h2⟩ := haddr
    exact ⟨a, ha, by simp [h1, h2]⟩
  obtain ⟨a, ha⟩ := haddr'
  have hlen : (fetchedProducts s data.items).length = data.items.length :=
    (fetched_length_eq_iff s data.items hwf).mpr ⟨hnd, hres⟩
  have hv : validateStock (fetchedProducts s data.items) data.items =
      none := by
    rw [validateStock_none_iff]
    intro item hitem p hp
    have hpmem : p ∈ fetchedProducts s data.items :=
      List.mem_of_find?_eq_some hp
    have hpid : p.id = item.productId := by
      simpa using List.find?_some hp
    exact hstock item hitem p (List.mem_of_mem_filter hpmem) hpid
  unfold create
  rw [hempty]
  simp only [Bool.false_eq_true, if_false, ha, hlen, ne_eq,
    not_true_eq_false, if_false, hv]

/-- C2: order creation is all-or-nothing.  On success all seller-group
order rows and all per-item stock decrements (each exactly once) commit in
one single transaction; when any item's quantity exceeds current stock the
whole call fails, and a failure commits nothing (an `Except.error` carries
no successor state — the transaction rolls back). -/
theorem C2_create_atomic (s : State) (userId : String)
    (data : CreateOrderData) (hwf : WFp s) :
    (∀ s' txns r, create s userId data = .ok (s', txns, r) →
      txns.length = 1 ∧
      s'.products = s.products.map (fun p =>
        { p with stock := p.stock - cartQty data.items p.id }) ∧
      s'.orders = s.orders ++ resultOrders r) ∧
    ((∃ item ∈ data.items, ∃ p ∈ s.products,
        p.id = item.productId ∧ p.stock < (item.quantity : Int)) →
      ∀ s' txns r, create s userId data ≠ .ok (s', txns, r)) := by
  constructor
  · intro s' txns r h
    obtain ⟨hne, hlen, hv, hs', htxns, hr⟩ :=
      create_ok_inv s userId data s' txns r h
    obtain ⟨hnd, hres⟩ := (fetched_length_eq_iff s data.items hwf).mp hlen
    have hresf := fetched_find_exists s data.items hwf hres
    refine ⟨by rw [htxns]; rfl, ?_, ?_⟩
    · rw [hs']
      exact createBuilt_products s userId data hresf
    · rw [hs', hr, resultOrders_match]
      rw [show (applyTxn s (createBuilt s userId data).2).orders =
          s.orders ++ createdOf (createBuilt s userId data).2 from
        applyTxn_orders_no_upd s _
          (buildOrders_no_upd userId data _ s.nextOrderId _)]
      rw [show createdOf (createBuilt s userId data).2 =
          (createBuilt s userId data).1 from
        buildOrders_created userId data _ s.nextOrderId _]
  · rintro ⟨item, hitem, p, hp, hpid, hlt⟩ s' txns r h
    obtain ⟨hne, hlen, hv, -, -, -⟩ :=
      create_ok_inv s userId data s' txns r h
    obtain ⟨hnd, hres⟩ := (fetched_length_eq_iff s data.items hwf).mp hlen
    have hfind := fetched_find s data.items hwf item p hp hpid hitem
    exact (validateStock_none_iff _ _).mp hv item hitem p hfind hlt

/-- Witness for C2: a concrete successful creation and a concrete
insufficient-stock rejection on the example state. -/
theorem C2_create_atomic_witness :
    ((∀ s' txns r, create exState "alice"
        { addressId := "a1", items := [⟨"p1", 2⟩],
          paymentMethod := PaymentMethod.PIX,
          shippingType := ShippingType.SELLER,
          shippingMethod := none, shippingCost := none } =
          .ok (s', txns, r) →
      txns.length = 1 ∧
      s'.products = exState.products.map (fun p =>
        { p with stock := p.stock - cartQty [⟨"p1", 2⟩] p.id }) ∧
      s'.orders = exState.orders ++ resultOrders r) ∧
    ((∃ item ∈ ([⟨"p1", 2⟩] : List CartItem), ∃ p ∈ exState.products,
        p.id = item.productId ∧ p.stock < (item.quantity : Int)) →
      ∀ s' txns r, create exState "alice"
        { addressId := "a1", items := [⟨"p1", 2⟩],
          paymentMethod := PaymentMethod.PIX,
          shippingType := ShippingType.SELLER,
          shippingMethod := none, shippingCost := none } ≠
          .ok (s', txns, r))) ∧
    ((∃ item ∈ ([⟨"p1", 9⟩] : List CartItem), ∃ p ∈ exState.products,
        p.id = item.productId ∧ p.stock < (item.quantity : Int)) ∧
      ∀ s' txns r, create exState "alice"
        { addressId := "a1", items := [⟨"p1", 9⟩],
          paymentMethod := PaymentMethod.PIX,
          shippingType := ShippingType.SELLER,
          shippingMethod := none, shippingCost := none } ≠
          .ok (s', txns, r)) := by
  refine ⟨C2_create_atomic exState "alice" _ (by unfold WFp; decide), ?_, ?_⟩
  · exact ⟨⟨"p1", 9⟩, List.mem_singleton_self _,
      exProduct, List.mem_cons_self _ _, rfl, by decide⟩
  · exact (C2_create_atomic exState "alice" _ (by unfold WFp; decide)).2
      ⟨⟨"p1", 9⟩, List.mem_singleton_self _,
        exProduct, List.mem_cons_self _ _, rfl, by decide⟩

/-! Inversion of the other two operations. -/

theorem updatePaymentStatus_ok_inv (s : State) (oid pid : String)
    (st : PaymentStatus) (s' : State) (txns : List Txn) (r : Option Order)
    (h : updatePaymentStatus s oid pid st = .ok (s', txns, r)) :
    ∃ order, s.orders.find? (fun o => decide (o.id = oid)) = some order ∧
      txns = upsTxns order oid pid st ∧ s' = applyTxns s txns := by
  unfold updatePaymentStatus at h
  split at h
  · cases h
  · rename_i order hfind
    simp only [Except.ok.injEq, Prod.mk.injEq] at h
    obtain ⟨h1, h2, h3⟩ := h
    exact ⟨order, hfind, h2.symm, by rw [← h1, h2]⟩

theorem updateOrderStatus_ok_inv (s : State) (oid sid : String)
    (ns : OrderStatus) (s' : State) (txns : List Txn) (r : Option Order)
    (h : updateOrderStatus s oid sid ns = .ok (s', txns, r)) :
    ∃ order, s.orders.find?
        (fun o => decide (o.id = oid ∧ o.sellerId = some sid)) =
        some order ∧
      ns ∈ validTransitions order.status ∧
      txns = [[DbWrite.updateOrder oid
        { paymentId := none, paymentStatus := none, status := some ns }]] ∧
      s' = applyTxns s txns := by
  unfold updateOrderStatus at h
  split at h
  · cases h
  · rename_i order hfind
    split at h
    · rename_i hmem
      simp only [Except.ok.injEq, Prod.mk.injEq] at h
      obtain ⟨h1, h2, h3⟩ := h
      exact ⟨order, hfind, hmem, h2.symm, by rw [← h1, h2]⟩
    · cases h

/-! Preservation of the invariants by each operation. -/

theorem runOp_preserves (s : State) (op : Op) (hwf : WFp s)
    (h0 : stockNonneg s) : WFp (runOp s op) ∧ stockNonneg (runOp s op) := by
  cases op with
  | createOp uid d =>
      cases hc : create s uid d with
      | error e =>
          rw [show runOp s (Op.createOp uid d) = s by simp [runOp, hc]]
          exact ⟨hwf, h0⟩
      | ok t =>
          obtain ⟨s', txns, r⟩ := t
          obtain ⟨hne, hlen, hv, hs', htxns, hr⟩ :=
            create_ok_inv s uid d s' txns r hc
          rw [show runOp s (Op.createOp uid d) = s' by simp [runOp, hc], hs']
          obtain ⟨hnd, hres⟩ := (fetched_length_eq_iff s d.items hwf).mp hlen
          have hresf := fetched_find_exists s d.items hwf hres
          constructor
          · show ((applyTxn s (createBuilt s uid d).2).products.map
              Product.id).Nodup
            rw [applyTxn_products_map_id]
            exact hwf
          · intro p' hp'
            rw [createBuilt_products s uid d hresf] at hp'
            obtain ⟨p, hp, rfl⟩ := List.mem_map.mp hp'
            show 0 ≤ p.stock - cartQty d.items p.id
            by_cases hmem : p.id ∈ d.items.map CartItem.productId
            · obtain ⟨item, hitem, hidEq⟩ := List.mem_map.mp hmem
              have hq : cartQty d.items p.id = (item.quantity : Int) := by
                rw [← hidEq]
                exact cartQty_of_mem_nodup d.items item hnd hitem
              have hfind := fetched_find s d.items hwf item p hp
                hidEq.symm hitem
              have hle := Int.not_lt.mp
                ((validateStock_none_iff _ _).mp hv item hitem p hfind)
              rw [hq]
              omega
            · rw [cartQty_not_mem d.items p.id hmem]
              have := h0 p hp
              omega
  | updOrderStatusOp oid sid ns =>
      cases hc : updateOrderStatus s oid sid ns with
      | error e =>
          rw [show runOp s (Op.updOrderStatusOp oid sid ns) = s by
            simp [runOp, hc]]
          exact ⟨hwf, h0⟩
      | ok t =>
          obtain ⟨s', txns, r⟩ := t
          obtain ⟨order, hfind, hmem, htxns, hs'⟩ :=
            updateOrderStatus_ok_inv s oid sid ns s' txns r hc
          rw [show runOp s (Op.updOrderStatusOp oid sid ns) = s' by
            simp [runOp, hc], hs', htxns, applyTxns_flatten]
          constructor
          · show ((applyTxn s _).products.map Product.id).Nodup
            rw [applyTxn_products_map_id]
            exact hwf
          · intro p' hp'
            rw [applyTxn_products] at hp'
            obtain ⟨p, hp, rfl⟩ := List.mem_map.mp hp'
            have h1 : pairSum (decPairs ([[DbWrite.updateOrder oid
              { paymentId := none, paymentStatus := none,
                status := some ns }]] : List Txn).flatten) p.id = 0 := rfl
            have h2 : pairSum (incPairs ([[DbWrite.updateOrder oid
              { paymentId := none, paymentStatus := none,
                status := some ns }]] : List Txn).flatten) p.id = 0 := rfl
            show 0 ≤ p.stock - _ + _
            rw [h1, h2]
            have := h0 p hp
            omega
  | updPaymentStatusOp oid pid st =>
      cases hc : updatePaymentStatus s oid pid st with
      | error e =>
          rw [show runOp s (Op.updPaymentStatusOp oid pid st) = s by
            simp [runOp, hc]]
          exact ⟨hwf, h0⟩
      | ok t =>
          obtain ⟨s', txns, r⟩ := t
          obtain ⟨order, hfind, htxns, hs'⟩ :=
            updatePaymentStatus_ok_inv s oid pid st s' txns r hc
          rw [show runOp s (Op.updPaymentStatusOp oid pid st) = s' by
            simp [runOp, hc], hs', htxns]
          constructor
          · show ((applyTxns s _).products.map Product.id).Nodup
            rw [applyTxns_flatten, applyTxn_products_map_id]
            exact hwf
          · intro p' hp'
            rw [ups_products] at hp'
            obtain ⟨p, hp, rfl⟩ := List.mem_map.mp hp'
            show 0 ≤ p.stock + _
            have hq : (0 : Int) ≤
                if st = PaymentStatus.REJECTED ∨
                    st = PaymentStatus.CANCELLED then
                  restoreQty order.items p.id
                else 0 := by
              split
              · exact pairSum_nonneg _ _
              · exact le_refl 0
            have := h0 p hp
            omega

/-- C3: in every sequential execution of the core operations (create,
updateOrderStatus, updatePaymentStatus) starting from a well-formed state
with all stocks non-negative, every product's stock stays non-negative
after each operation. -/
theorem C3_stock_nonneg_invariant (s : State) (ops : List Op)
    (hwf : WFp s) (h0 : stockNonneg s) : stockNonneg (runOps s ops) := by
  suffices h : ∀ ops s, WFp s → stockNonneg s →
      WFp (runOps s ops) ∧ stockNonneg (runOps s ops) from
    (h ops s hwf h0).2
  intro ops
  induction ops with
  | nil => exact fun s hwf h0 => ⟨hwf, h0⟩
  | cons op rest ih =>
      intro s hwf h0
      have hstep := runOp_preserves s op hwf h0
      exact ih (runOp s op) hstep.1 hstep.2

/-- Witness for C3: a concrete three-operation run on the example state. -/
theorem C3_stock_nonneg_invariant_witness :
    stockNonneg (runOps exState
      [Op.createOp "alice"
        { addressId := "a1", items := [⟨"p1", 2⟩],
          paymentMethod := PaymentMethod.PIX,
          shippingType := ShippingType.SELLER,
          shippingMethod := none, shippingCost := none },
       Op.updPaymentStatusOp "o1" "pay1" PaymentStatus.REJECTED,
       Op.updOrderStatusOp "order-0" "s1" OrderStatus.CANCELLED]) :=
  C3_stock_nonneg_invariant exState _ (by unfold WFp; decide)
    (by unfold stockNonneg; decide)

theorem groupEntries_ids (products : List Product) (items : List CartItem)
    (hres : ∀ item ∈ items, ∃ p,
      products.find? (fun q => decide (q.id = item.productId)) = some p) :
    (groupEntries products items).map OrderItem.productId =
      items.map CartItem.productId := by
  induction items with
  | nil => rfl
  | cons item rest ih =>
      obtain ⟨p, hp⟩ := hres item (List.mem_cons_self _ _)
      have hrest : ∀ it ∈ rest, ∃ p,
          products.find? (fun q => decide (q.id = it.productId)) = some p :=
        fun it hit => hres it (List.mem_cons_of_mem _ hit)
      have hstep : groupEntries products (item :: rest) =
          (⟨item.productId, item.quantity, p.price⟩ : OrderItem) ::
            groupEntries products rest := by
        simp [groupEntries, List.filterMap_cons, hp]
      rw [hstep, List.map_cons, List.map_cons, ih hrest]

/-- C10: a cart that repeats a productId is rejected with the
products-not-found error (the resolution check compares the count of
distinct fetched products with the number of cart items), and consequently
no successfully created order ever contains two items for the same
product. -/
theorem C10_duplicate_product_rejected (s : State) (userId : String)
    (data : CreateOrderData) (hwf : WFp s) :
    ((¬(data.items.map CartItem.productId).Nodup) →
      (∃ a, s.addresses.find?
        (fun a => decide (a.id = data.addressId ∧ a.userId = userId)) =
        some a) →
      create s userId data =
        .error (Err.badRequest "One or more products not found")) ∧
    (∀ s' txns r, create s userId data = .ok (s', txns, r) →
      ∀ o ∈ resultOrders r, (o.items.map OrderItem.productId).Nodup) := by
  constructor
  · rintro hdup ⟨a, ha⟩
    have hne : data.items ≠ [] := by
      intro hnl
      rw [hnl] at hdup
      exact hdup List.nodup_nil
    have hempty : data.items.isEmpty = false := by
      cases h : data.items with
      | nil => exact absurd h hne
      | cons a l => rfl
    have hneq : (fetchedProducts s data.items).length ≠
        data.items.length := by
      intro heq
      exact hdup ((fetched_length_eq_iff s data.items hwf).mp heq).1
    unfold create
    rw [hempty]
    simp only [Bool.false_eq_true, if_false, ha, ne_eq]
    rw [if_pos hneq]
  · intro s' txns r h o ho
    obtain ⟨hne, hlen, hv, hs', htxns, hr⟩ :=
      create_ok_inv s userId data s' txns r h
    obtain ⟨hnd, hres⟩ := (fetched_length_eq_iff s data.items hwf).mp hlen
    have hresf := fetched_find_exists s data.items hwf hres
    rw [hr, resultOrders_match] at ho
    have hitems : o.items ∈ ((groupBySeller (fetchedProducts s data.items)
        data.items).map Prod.snd) := by
      have hm := buildOrders_items userId data
        (shippingPerSellerOf data (groupBySeller
          (fetchedProducts s data.items) data.items).length)
        s.nextOrderId
        (groupBySeller (fetchedProducts s data.items) data.items)
      rw [← hm]
      exact List.mem_map_of_mem Order.items ho
    have hsub : o.items.Sublist ((groupBySeller
        (fetchedProducts s data.items) data.items).map Prod.snd).flatten :=
      List.sublist_join hitems
    have hperm := (groupBySeller_join_perm (fetchedProducts s data.items)
      data.items).map OrderItem.productId
    have hids := groupEntries_ids (fetchedProducts s data.items)
      data.items hresf
    have hflat : ((((groupBySeller (fetchedProducts s data.items)
        data.items).map Prod.snd).flatten).map OrderItem.productId).Nodup := by
      rw [hperm.nodup_iff, hids]
      exact hnd
    exact List.Nodup.sublist (List.Sublist.map OrderItem.productId hsub) hflat

/-- Witness for C10: the duplicate cart `[p1, p1]` on the example state is
rejected with the products-not-found error, and a concrete success case. -/
theorem C10_duplicate_product_rejected_witness :
    create exState "alice"
      { addressId := "a1", items := [⟨"p1", 1⟩, ⟨"p1", 1⟩],
        paymentMethod := PaymentMethod.PIX,
        shippingType := ShippingType.SELLER,
        shippingMethod := none, shippingCost := none } =
      .error (Err.badRequest "One or more products not found") :=
  (C10_duplicate_product_rejected exState "alice" _
      (by unfold WFp; decide)).1
    (by decide) ⟨exAddress, by decide⟩

/-- C1: for every valid cart (non-empty; address owned by the buyer; the
product ids distinct and all resolving, which is exactly what the
fetched-count check accepts; every quantity within stock) spanning K
distinct seller groups (platform products forming the sentinel group),
`create` succeeds and produces exactly K orders; each order's total is the
sum of captured unit price × quantity over its items plus shippingCost/K
(0 when shippingType is SELLER); the orders appear in seller-group
discovery order following cart item order, their items partition the cart,
and the result is the single order when K = 1, otherwise the list. -/
theorem C1_create_splits_by_seller (s : State) (userId : String)
    (data : CreateOrderData) (hwf : WFp s) (hne : data.items ≠ [])
    (hnd : (data.items.map CartItem.productId).Nodup)
    (hres : ∀ item ∈ data.items, ∃ p ∈ s.products, p.id = item.productId)
    (haddr : ∃ a ∈ s.addresses, a.id = data.addressId ∧ a.userId = userId)
    (hstock : ∀ item ∈ data.items, ∀ p ∈ s.products,
      p.id = item.productId → ¬p.stock < (item.quantity : Int)) :
    ∃ s' txns r, create s userId data = .ok (s', txns, r) ∧
      (resultOrders r).length =
        (cartKeys (fetchedProducts s data.items) data.items).toFinset.card ∧
      (resultOrders r).map Order.sellerId =
        (distinctKeys (cartKeys (fetchedProducts s data.items)
          data.items)).map
          (fun k => if k = "platform" then none else some k) ∧
      (∀ o ∈ resultOrders r,
        o.total = (o.items.map fun i => i.price * (i.quantity : Rat)).sum +
          (if data.shippingType = ShippingType.SELLER then 0
            else data.shippingCost.getD 0) /
          ((cartKeys (fetchedProducts s data.items)
            data.items).toFinset.card : Rat)) ∧
      ((resultOrders r).map Order.items).flatten.Perm
        (groupEntries (fetchedProducts s data.items) data.items) ∧
      ((resultOrders r).length = 1 →
        ∃ o, r = CreateResult.one o ∧ resultOrders r = [o]) ∧
      ((resultOrders r).length ≠ 1 →
        r = CreateResult.many (resultOrders r)) := by
  have hok := create_ok_of s userId data hwf hne hnd hres haddr hstock
  have hKlen : (groupBySeller (fetchedProducts s data.items)
      data.items).length =
      (cartKeys (fetchedProducts s data.items) data.items).toFinset.card := by
    rw [← distinctKeys_length, ← groupBySeller_keys, List.length_map]
  have hBlen : (createBuilt s userId data).1.length =
      (groupBySeller (fetchedProducts s data.items) data.items).length :=
    buildOrders_length userId data _ s.nextOrderId _
  refine ⟨_, _, _, hok, ?_, ?_, ?_, ?_, ?_, ?_⟩
  · rw [resultOrders_match, hBlen]
    exact hKlen
  · rw [resultOrders_match]
    rw [show (createBuilt s userId data).1.map Order.sellerId =
        (groupBySeller (fetchedProducts s data.items) data.items).map
          (fun g => if g.1 = "platform" then none else some g.1) from
      buildOrders_sellerIds userId data _ s.nextOrderId _]
    rw [← groupBySeller_keys, List.map_map]
    rfl
  · intro o ho
    rw [resultOrders_match] at ho
    obtain ⟨htot, -, -, -⟩ := buildOrders_mem userId data
      (shippingPerSellerOf data (groupBySeller
        (fetchedProducts s data.items) data.items).length)
      s.nextOrderId
      (groupBySeller (fetchedProducts s data.items) data.items) o ho
    rw [htot, itemsTotal_eq_sum]
    congr 1
    unfold shippingPerSellerOf
    rw [hKlen]
  · rw [resultOrders_match]
    rw [show (createBuilt s userId data).1.map Order.items =
        (groupBySeller (fetchedProducts s data.items) data.items).map
          Prod.snd from
      buildOrders_items userId data _ s.nextOrderId _]
    exact groupBySeller_join_perm _ _
  · intro h1
    cases hB : (createBuilt s userId data).1 with
    | nil =>
        rw [resultOrders_match, hB] at h1
        simp at h1
    | cons a tl =>
        cases tl with
        | nil => exact ⟨a, by simp [hB], by simp [hB, resultOrders]⟩
        | cons b t =>
            rw [resultOrders_match, hB] at h1
            simp at h1
  · intro h1
    cases hB : (createBuilt s userId data).1 with
    | nil => simp [hB, resultOrders]
    | cons a tl =>
        cases tl with
        | nil =>
            rw [resultOrders_match, hB] at h1
            simp at h1
        | cons b t => simp [hB, resultOrders]

/-- Witness for C1: a two-seller-group cart (seller s1's `p1` and the
platform's `p2`) on the example state. -/
theorem C1_create_splits_by_seller_witness :
    ∃ s' txns r, create exState "alice"
      { addressId := "a1", items := [⟨"p1", 2⟩, ⟨"p2", 1⟩],
        paymentMethod := PaymentMethod.PIX,
        shippingType := ShippingType.SELLER,
        shippingMethod := none, shippingCost := none } = .ok (s', txns, r) ∧
      (resultOrders r).length =
        (cartKeys (fetchedProducts exState [⟨"p1", 2⟩, ⟨"p2", 1⟩])
          [⟨"p1", 2⟩, ⟨"p2", 1⟩]).toFinset.card ∧
      (resultOrders r).map Order.sellerId =
        (distinctKeys (cartKeys
          (fetchedProducts exState [⟨"p1", 2⟩, ⟨"p2", 1⟩])
          [⟨"p1", 2⟩, ⟨"p2", 1⟩])).map
          (fun k => if k = "platform" then none else some k) ∧
      (∀ o ∈ resultOrders r,
        o.total = (o.items.map fun i => i.price * (i.quantity : Rat)).sum +
          (if ShippingType.SELLER = ShippingType.SELLER then 0
            else (none : Option Rat).getD 0) /
          ((cartKeys (fetchedProducts exState [⟨"p1", 2⟩, ⟨"p2", 1⟩])
            [⟨"p1", 2⟩, ⟨"p2", 1⟩]).toFinset.card : Rat)) ∧
      ((resultOrders r).map Order.items).flatten.Perm
        (groupEntries (fetchedProducts exState [⟨"p1", 2⟩, ⟨"p2", 1⟩])
          [⟨"p1", 2⟩, ⟨"p2", 1⟩]) ∧
      ((resultOrders r).length = 1 →
        ∃ o, r = CreateResult.one o ∧ resultOrders r = [o]) ∧
      ((resultOrders r).length ≠ 1 →
        r = CreateResult.many (resultOrders r)) :=
  C1_create_splits_by_seller exState "alice"
    { addressId := "a1", items := [⟨"p1", 2⟩, ⟨"p2", 1⟩],
      paymentMethod := PaymentMethod.PIX,
      shippingType := ShippingType.SELLER,
      shippingMethod := none, shippingCost := none }
    (by unfold WFp; decide) (by decide) (by decide)
    (by
      intro item hitem
      rcases List.mem_cons.mp hitem with rfl | hitem2
      · exact ⟨exProduct, List.mem_cons_self _ _, rfl⟩
      · rcases List.mem_cons.mp hitem2 with rfl | hitem3
        · exact ⟨exProduct2, List.mem_cons_of_mem _ (List.mem_cons_self _ _),
            rfl⟩
        · cases hitem3)
    ⟨exAddress, List.mem_cons_self _ _, rfl, rfl⟩
    (by decide)

end OpticalMarket